import Mathlib

/-!
Verification of Source/Scene/Instanced3DModel3DTileContentProvider.js and
Source/Scene/GlobeSurfaceTileProvider.js against their specification.

The two JavaScript source files are embedded shallowly below: pure decode logic
becomes Lean functions over byte lists (machine integers are `Nat` values read
little-endian), the mutable content object becomes an explicit record threaded
through each operation, and JavaScript exceptions become `Except` results that
also carry the record as it stood at the throw point.  External collaborators
(Core float math, JSON parsing, the `when` deferred library, the request
scheduler) are represented by constructors that record exactly the inputs the
source hands them, so no collaborator behavior is invented.
-/

namespace UAVCesium

/-- Tile content lifecycle states (the Cesium3DTileContentState collaborator
enumeration used by the provider). -/
inductive TileContentState where
  | UNLOADED
  | LOADING
  | PROCESSING
  | READY
  | FAILED
deriving DecidableEq, Repr

/-- Errors raised by the provider, distinguished the way the source
distinguishes them (DeveloperError messages and promise rejection reasons).
`invalidMagic` carries the four bytes actually read, `unsupportedVersion` and
`unsupportedGltfFormat` carry the offending header value, `invalidBatchId`
carries the argument and the current feature count.  `badBatchTable` is the
SyntaxError thrown by JSON.parse on unparseable batch-table bytes (source line
244), which propagates out of `initialize` uncaught.  `tilesetDestroyed` is the
rejection reason built in `request` when the content was destroyed while
loading; `schedulingFailure` and `collectionFailure` stand for errors delivered
by the scheduler and the model-instance collection (opaque payload). -/
inductive DevError where
  | invalidMagic (magic : List Nat)
  | unsupportedVersion (version : Nat)
  | unsupportedGltfFormat (format : Nat)
  | badBatchTable (bytes : List Nat)
  | invalidBatchId (batchId : Option Int) (featuresLength : Nat)
  | tilesetDestroyed
  | schedulingFailure (code : Nat)
  | collectionFailure (code : Nat)
deriving DecidableEq, Repr

deriving instance DecidableEq for Except

/-- Outcome with which a deferred promise settles. -/
inductive PromiseOutcome where
  | resolved
  | rejected (e : DevError)
deriving DecidableEq, Repr

/-- Modelled from the spec: a `when.defer()` deferred from the ThirdParty when
library (not under src/).  The spec states the observer slots are
single-resolution: resolving or rejecting a second time is a no-op.  `none` is
a pending deferred; `some o` is a deferred settled with outcome `o`. -/
abbrev Deferred := Option PromiseOutcome

/-- Settling a deferred: the first settlement wins, later attempts are
ignored (single-resolution, modelled from the spec). -/
def Deferred.settle (d : Deferred) (o : PromiseOutcome) : Deferred :=
  match d with
  | none => some o
  | some o0 => some o0

def Deferred.resolveD (d : Deferred) : Deferred := d.settle .resolved

def Deferred.rejectD (d : Deferred) (e : DevError) : Deferred := d.settle (.rejected e)

/-- Little-endian unsigned read of `n` bytes at offset `off`
(`DataView.getUint32(off, true)` and friends).  Bytes past the end of the
buffer read as 0; theorems that need in-bounds reads state the length
hypothesis explicitly. -/
def leRead (b : List Nat) (off : Nat) : Nat → Nat
  | 0 => 0
  | m + 1 => b.getD off 0 + 256 * leRead b (off + 1) m

def getUint32 (b : List Nat) (off : Nat) : Nat := leRead b off 4

def getUint16 (b : List Nat) (off : Nat) : Nat := leRead b off 2

/-- A little-endian 8-byte float64 read.  The Core float decoding is an
external collaborator, so a double is represented by its 64-bit pattern. -/
def getFloat64Bits (b : List Nat) (off : Nat) : Nat := leRead b off 8

/-- Core/getMagic: the four bytes at `off`, as raw character codes (the source
compares the decoded 4-character string against a literal; for 4 single-byte
characters that comparison is byte equality). -/
def getMagic (b : List Nat) (off : Nat) : List Nat :=
  [b.getD off 0, b.getD (off + 1) 0, b.getD (off + 2) 0, b.getD (off + 3) 0]

/-- The character codes of the literal magic tag the source checks against. -/
def magicI3dm : List Nat := [0x69, 0x33, 0x64, 0x6d]

/-- Core/getStringFromTypedArray over a subrange: the raw byte slice
`[off, off+len)`.  String decoding is external, so the slice itself stands for
the string. -/
def listSlice (b : List Nat) (off len : Nat) : List Nat :=
  (b.drop off).take len

/-- Core/Cartesian3.fromRadians output.  The Core ellipsoid math is an external
collaborator, so a position is represented by the bit patterns the source feeds
to it: longitude, latitude (little-endian float64 patterns) and height. -/
structure Position where
  lonBits : Nat
  latBits : Nat
  heightBits : Nat
deriving DecidableEq, Repr

/-- Transforms.eastNorthUpToFixedFrame is an external Core collaborator: the
placement matrix is represented by the position it is derived from. -/
structure ModelMatrix where
  origin : Position
deriving DecidableEq, Repr

/-- One decoded instance record (source lines 303-306). -/
structure DecodedInstance where
  modelMatrix : ModelMatrix
  batchId : Nat
deriving DecidableEq, Repr

/-- Cesium3DTileBatchTableResources collaborator (a Scene file outside src/):
it is constructed with the declared feature count and later receives the parsed
batch-table JSON.  JSON.parse is an external builtin, so the parsed value is
represented by the raw UTF-8 bytes handed to it. -/
structure BatchTableResources where
  featuresLength : Nat
  batchTable : Option (List Nat)
deriving DecidableEq, Repr

/-- ModelInstanceCollection collaborator: constructed from the decoded
instances, the batch table resources, the tile's bounding volume (opaque
handle), and the asset reference — either an external URI (format 0: the URI
bytes together with the tileset base-url handle given to getAbsoluteUri) or
embedded glTF bytes with the content URL as base path (format 1).  Its
`length` is the number of instances it was constructed with. -/
structure ModelInstanceCollection where
  instances : List DecodedInstance
  batchTableResources : BatchTableResources
  boundingVolume : Nat
  url : Option (List Nat × Nat)
  gltf : Option (List Nat)
  basePath : Option Nat
deriving DecidableEq, Repr

def ModelInstanceCollection.length (m : ModelInstanceCollection) : Nat :=
  m.instances.length

/-- Cesium3DTileFeature collaborator: a handle recording its constructor
arguments (tileset handle, batch table resources, batch id) — source line 119. -/
structure Feature where
  tileset : Nat
  batchTableResources : Option BatchTableResources
  batchId : Nat
deriving DecidableEq, Repr

/-- The mutable state of an Instanced3DModel3DTileContentProvider (constructor,
source lines 66-95).  `url`, `tileset`, `tile`, `tileBoundingVolume` and
`tilesetBaseUrl` are opaque handles.  `destroyed` is modelled from the spec:
Core/destroyObject (outside src/) makes `isDestroyed` report true after
`destroy`, which the spec describes as an internal destroyed flag. -/
structure ContentProvider where
  modelInstanceCollection : Option ModelInstanceCollection
  url : Nat
  tileset : Nat
  tile : Nat
  tileBoundingVolume : Nat
  tilesetBaseUrl : Nat
  state : TileContentState
  processingPromise : Deferred
  readyPromise : Deferred
  batchTableResources : Option BatchTableResources
  features : Option (List Feature)
  destroyed : Bool
deriving DecidableEq, Repr

/-- The constructor (source lines 66-95). -/
def mkContentProvider (tileset tile url tileBoundingVolume tilesetBaseUrl : Nat) :
    ContentProvider :=
  { modelInstanceCollection := none
    url := url
    tileset := tileset
    tile := tile
    tileBoundingVolume := tileBoundingVolume
    tilesetBaseUrl := tilesetBaseUrl
    state := .UNLOADED
    processingPromise := none
    readyPromise := none
    batchTableResources := none
    features := none
    destroyed := false }

/-- `featuresLength` property (source lines 106-110): the length of the model
instance collection.  The source reads `.length` off the collection without a
definedness check; reading it before `initialize` is a crash in JavaScript, so
theorems about it assume the collection is present (here the absent case reads
as 0). -/
def ContentProvider.featuresLength (c : ContentProvider) : Nat :=
  match c.modelInstanceCollection with
  | some m => m.length
  | none => 0

/-- `createFeatures` (source lines 113-123): lazily builds one Feature handle
per instance, bound to the content's batch table resources and the batch id,
only when the array is not yet built and the feature count is positive. -/
def createFeatures (content : ContentProvider) : ContentProvider :=
  let featuresLength := content.featuresLength
  if content.features = none ∧ 0 < featuresLength then
    { content with
      features := some ((List.range featuresLength).map fun i =>
        { tileset := content.tileset
          batchTableResources := content.batchTableResources
          batchId := i }) }
  else
    content

/-- `getFeature` (source lines 146-156): DeveloperError when `batchId` is
undefined, negative, or at least `featuresLength`; otherwise materializes the
feature array if needed and returns the indexed handle (an out-of-range array
access in JavaScript yields undefined, here `none`). -/
def getFeature (c : ContentProvider) (batchId : Option Int) :
    Except DevError (ContentProvider × Option Feature) :=
  let featuresLength := c.featuresLength
  match batchId with
  | none => .error (.invalidBatchId none featuresLength)
  | some b =>
    if b < 0 ∨ (featuresLength : Int) ≤ b then
      .error (.invalidBatchId (some b) featuresLength)
    else
      let c' := createFeatures c
      .ok (c', (c'.features.getD []).get? b.toNat)

/-- Byte length of one instance record (source line 253): two float64s plus a
uint16 batch id exactly when a batch table is present. -/
def instanceByteLen (hasBatchTable : Bool) : Nat :=
  8 * 2 + (if hasBatchTable then 2 else 0)

/-- One iteration of the instance decode loop (source lines 285-307): a
longitude float64 at the record start, a latitude float64 8 bytes in, height
0, and the batch id — the uint16 after the doubles when a batch table is
present, else the loop index `i`. -/
def readInstance (view : List Nat) (off : Nat) (hasBatchTable : Bool) (i : Nat) :
    DecodedInstance :=
  let longitude := getFloat64Bits view off
  let latitude := getFloat64Bits view (off + 8)
  let height := 0
  let batchId := if hasBatchTable then getUint16 view (off + 16) else i
  { modelMatrix := { origin := { lonBits := longitude, latBits := latitude, heightBits := height } }
    batchId := batchId }

/-- The instance decode loop (source lines 285-307), reading `count` records
starting at loop index `i` and view-relative offset `off`. -/
def readInstances (view : List Nat) (hasBatchTable : Bool) :
    Nat → Nat → Nat → List DecodedInstance
  | 0, _, _ => []
  | count + 1, i, off =>
    readInstance view off hasBatchTable i ::
      readInstances view hasBatchTable count (i + 1) (off + instanceByteLen hasBatchTable)

/-- The tail of `initialize` after the batch-table section (source lines
248-323): the glTF view, the instance decode loop, the model instance
collection construction, and the transition to PROCESSING.
`batchTableResources` is the same object the content already references
(the source aliases them). -/
def initializeTail (c : ContentProvider) (arrayBuffer : List Nat)
    (byteOffset gltfByteLength gltfFormat instancesLength : Nat)
    (batchTableResources : BatchTableResources) (hasBatchTable : Bool) :
    ContentProvider × Except DevError Unit :=
  let gltfView := listSlice arrayBuffer byteOffset gltfByteLength
  let byteOffset := byteOffset + gltfByteLength
  let instancesByteLength := instancesLength * instanceByteLen hasBatchTable
  let instancesView := listSlice arrayBuffer byteOffset instancesByteLength
  let collectionUrl : Option (List Nat × Nat) :=
    if gltfFormat = 0 then some (gltfView, c.tilesetBaseUrl) else none
  let collectionGltf : Option (List Nat) :=
    if gltfFormat = 0 then none else some gltfView
  let collectionBasePath : Option Nat :=
    if gltfFormat = 0 then none else some c.url
  -- the source resets its byteOffset to 0 because the reads below go through
  -- the bounded instancesView; `readInstances` does the same
  let instances := readInstances instancesView hasBatchTable instancesLength 0 0
  let modelInstanceCollection : ModelInstanceCollection :=
    { instances := instances
      batchTableResources := batchTableResources
      boundingVolume := c.tileBoundingVolume
      url := collectionUrl
      gltf := collectionGltf
      basePath := collectionBasePath }
  let c := { c with
    modelInstanceCollection := some modelInstanceCollection
    state := .PROCESSING
    processingPromise := c.processingPromise.resolveD }
  (c, .ok ())

/-- The body of `initialize` after the three header checks have passed
(source lines 238-323).  `byteOffset` here is the source's `byteOffset` after
the seven header uint32s.  Field updates happen in source order: the batch
table resources object is assigned to the content (source line 239) before
the batch-table JSON is parsed (line 244).  JSON.parse is an external
builtin, passed in as `parseJson`: a `none` result is the SyntaxError it
throws on unparseable bytes — the throw propagates with `_batchTableResources`
already assigned and its `batchTable` still unset; a `some` result is the
parsed value (opaque here), stored on the object the content references. -/
def initializeAfterChecks (parseJson : List Nat → Option (List Nat))
    (c : ContentProvider) (arrayBuffer : List Nat)
    (byteOffset batchTableByteLength gltfByteLength gltfFormat instancesLength : Nat) :
    ContentProvider × Except DevError Unit :=
  let batchTableResources0 : BatchTableResources :=
    { featuresLength := instancesLength, batchTable := none }
  let c := { c with batchTableResources := some batchTableResources0 }
  if 0 < batchTableByteLength then
    let batchTableString := listSlice arrayBuffer byteOffset batchTableByteLength
    match parseJson batchTableString with
    | none => (c, .error (.badBatchTable batchTableString))
    | some parsed =>
      let batchTableResources := { batchTableResources0 with batchTable := some parsed }
      let c := { c with batchTableResources := some batchTableResources }
      initializeTail c arrayBuffer (byteOffset + batchTableByteLength)
        gltfByteLength gltfFormat instancesLength batchTableResources true
  else
    initializeTail c arrayBuffer byteOffset
      gltfByteLength gltfFormat instancesLength batchTableResources0 false

/-- `initialize` (source lines 197-323).  The result pairs the content fields
as they stand when the function returns or throws with the thrown error, so a
theorem about an error path also states exactly which mutations preceded the
throw.  Header reads are written with absolute offsets; the source reaches the
same offsets by successive `byteOffset +=` steps.  `parseJson` is the
external JSON.parse builtin (see `initializeAfterChecks`). -/
def initializeContent (parseJson : List Nat → Option (List Nat))
    (c : ContentProvider) (arrayBuffer : List Nat) (byteOffset : Nat) :
    ContentProvider × Except DevError Unit :=
  let magic := getMagic arrayBuffer byteOffset
  if magic ≠ magicI3dm then
    (c, .error (.invalidMagic magic))
  else
    let version := getUint32 arrayBuffer (byteOffset + 4)
    if version ≠ 1 then
      (c, .error (.unsupportedVersion version))
    else
      -- byteOffset + 8 holds the total byte length, read and skipped
      let batchTableByteLength := getUint32 arrayBuffer (byteOffset + 12)
      let gltfByteLength := getUint32 arrayBuffer (byteOffset + 16)
      let gltfFormat := getUint32 arrayBuffer (byteOffset + 20)
      let instancesLength := getUint32 arrayBuffer (byteOffset + 24)
      if gltfFormat ≠ 0 ∧ gltfFormat ≠ 1 then
        (c, .error (.unsupportedGltfFormat gltfFormat))
      else
        initializeAfterChecks parseJson c arrayBuffer (byteOffset + 28)
          batchTableByteLength gltfByteLength gltfFormat instancesLength

/-- The readiness callback the source attaches to the model instance
collection's ready promise (source lines 316-318). -/
def onCollectionReady (c : ContentProvider) : ContentProvider :=
  { c with state := .READY, readyPromise := c.readyPromise.resolveD }

/-- The failure callback attached to the model instance collection's ready
promise (source lines 319-322). -/
def onCollectionFailed (c : ContentProvider) (e : DevError) : ContentProvider :=
  { c with state := .FAILED, readyPromise := c.readyPromise.rejectD e }

/-- `request` (source lines 167-190) up to the scheduler's admission decision:
when the scheduler returns a promise the state becomes LOADING, otherwise
nothing changes.  The attached continuation is `onDelivery`. -/
def request (c : ContentProvider) (admitted : Bool) : ContentProvider :=
  if admitted then { c with state := .LOADING } else c

/-- The continuation `promise.then(...).otherwise(...)` that `request` attaches
to the scheduler promise (source lines 180-188), observed when the byte
delivery settles.  Modelled from the spec for the when library's chaining: a
rejection returned by — or an exception thrown inside — the success callback
is delivered to the failure callback attached downstream.  On successful
delivery the callback first checks the destroyed flag and returns a rejection
without calling `initialize`; otherwise it calls `initialize`, whose thrown
errors also reach the failure callback.  The failure callback sets the state
to FAILED and rejects the ready promise with the delivered error. -/
def onDelivery (parseJson : List Nat → Option (List Nat))
    (c : ContentProvider) (outcome : Except DevError (List Nat)) :
    ContentProvider :=
  match outcome with
  | .error e => { c with state := .FAILED, readyPromise := c.readyPromise.rejectD e }
  | .ok arrayBuffer =>
    if c.destroyed then
      { c with state := .FAILED, readyPromise := c.readyPromise.rejectD .tilesetDestroyed }
    else
      match initializeContent parseJson c arrayBuffer 0 with
      | (c', .error e) => { c' with state := .FAILED, readyPromise := c'.readyPromise.rejectD e }
      | (c', .ok _) => c'

/-- `destroy` (source lines 364-369): releases the collection and the batch
table resources; Core/destroyObject (outside src/) then marks the object
destroyed, modelled from the spec as the destroyed flag. -/
def destroy (c : ContentProvider) : ContentProvider :=
  { c with
    modelInstanceCollection := none
    batchTableResources := none
    destroyed := true }

/-- The internal transition attempts that can reach a content object after
creation: the collection readiness and failure callbacks, a byte-delivery
settlement, a request admission outcome, and a direct `initialize` call. -/
inductive ContentEvent where
  | collectionReady
  | collectionFailed (e : DevError)
  | delivery (outcome : Except DevError (List Nat))
  | requestAttempt (admitted : Bool)
  | initializeCall (arrayBuffer : List Nat) (byteOffset : Nat)

def stepEvent (parseJson : List Nat → Option (List Nat)) (c : ContentProvider) :
    ContentEvent → ContentProvider
  | .collectionReady => onCollectionReady c
  | .collectionFailed e => onCollectionFailed c e
  | .delivery outcome => onDelivery parseJson c outcome
  | .requestAttempt admitted => request c admitted
  | .initializeCall arrayBuffer byteOffset =>
    (initializeContent parseJson c arrayBuffer byteOffset).1

def runEvents (parseJson : List Nat → Option (List Nat)) (c : ContentProvider) :
    List ContentEvent → ContentProvider
  | [] => c
  | e :: es => runEvents parseJson (stepEvent parseJson c e) es

/-!
Embedding of Source/Scene/GlobeSurfaceTileProvider.js: the SceneMode-dependent
distance-to-tile computation (source lines 591-653), the draw-command pool used
by `beginFrame`/`renderTile`/`endFrame` (source lines 180-230 and 330-571), and
the imagery-layer removal walk (source lines 670-704).
-/

/-- The SceneMode collaborator enumeration values the provider branches on. -/
inductive SceneMode where
  | SCENE3D
  | SCENE2D
  | COLUMBUS_VIEW
  | MORPHING
deriving DecidableEq, Repr

/-- Core/Cartesian3 over exact rationals (the source computes with float64;
the claims about this function concern its algebra, stated here over exact
arithmetic so the model stays executable). -/
structure Cartesian3R where
  x : ℚ
  y : ℚ
  z : ℚ
deriving DecidableEq, Repr

def Cartesian3R.sub (a b : Cartesian3R) : Cartesian3R :=
  ⟨a.x - b.x, a.y - b.y, a.z - b.z⟩

def Cartesian3R.dot (a b : Cartesian3R) : ℚ :=
  a.x * b.x + a.y * b.y + a.z * b.z

/-- The per-tile geometry `getDistanceToTile` reads off `tile.data` (source
lines 594-600). -/
structure SurfaceTileGeom where
  southwestCornerCartesian : Cartesian3R
  northeastCornerCartesian : Cartesian3R
  westNormal : Cartesian3R
  southNormal : Cartesian3R
  eastNormal : Cartesian3R
  northNormal : Cartesian3R
  maximumHeight : ℚ
deriving DecidableEq, Repr

/-- The corner/normal/height values after the non-3D override (source lines
602-616): outside SCENE3D the projected southwest/northeast corners (results
of the external `projection.project`, passed in here) are re-slotted as
(0, x, y), the normals become axis units, and the maximum height collapses
to 0. -/
def effectiveGeom (mode : SceneMode) (st : SurfaceTileGeom)
    (projectedSW projectedNE : Cartesian3R) : SurfaceTileGeom :=
  if mode ≠ .SCENE3D then
    { southwestCornerCartesian := ⟨0, projectedSW.x, projectedSW.y⟩
      northeastCornerCartesian := ⟨0, projectedNE.x, projectedNE.y⟩
      westNormal := ⟨0, -1, 0⟩
      eastNormal := ⟨0, 1, 0⟩
      southNormal := ⟨0, 0, -1⟩
      northNormal := ⟨0, 0, 1⟩
      maximumHeight := 0 }
  else
    st

/-- Signed distance to the west bounding plane (source lines 618-619). -/
def distanceToWestPlane (mode : SceneMode) (st : SurfaceTileGeom)
    (projectedSW projectedNE cameraCartesianPosition : Cartesian3R) : ℚ :=
  let g := effectiveGeom mode st projectedSW projectedNE
  (cameraCartesianPosition.sub g.southwestCornerCartesian).dot g.westNormal

/-- Signed distance to the south bounding plane (source lines 618-620). -/
def distanceToSouthPlane (mode : SceneMode) (st : SurfaceTileGeom)
    (projectedSW projectedNE cameraCartesianPosition : Cartesian3R) : ℚ :=
  let g := effectiveGeom mode st projectedSW projectedNE
  (cameraCartesianPosition.sub g.southwestCornerCartesian).dot g.southNormal

/-- Signed distance to the east bounding plane (source lines 622-623). -/
def distanceToEastPlane (mode : SceneMode) (st : SurfaceTileGeom)
    (projectedSW projectedNE cameraCartesianPosition : Cartesian3R) : ℚ :=
  let g := effectiveGeom mode st projectedSW projectedNE
  (cameraCartesianPosition.sub g.northeastCornerCartesian).dot g.eastNormal

/-- Signed distance to the north bounding plane (source lines 622-624). -/
def distanceToNorthPlane (mode : SceneMode) (st : SurfaceTileGeom)
    (projectedSW projectedNE cameraCartesianPosition : Cartesian3R) : ℚ :=
  let g := effectiveGeom mode st projectedSW projectedNE
  (cameraCartesianPosition.sub g.northeastCornerCartesian).dot g.northNormal

/-- Vertical excess above the tile's top (source lines 626-632): in SCENE3D
the cartographic camera height against the tile's maximum height, otherwise
the camera's x slot against the collapsed height 0. -/
def distanceFromTop (mode : SceneMode) (st : SurfaceTileGeom)
    (projectedSW projectedNE cameraCartesianPosition : Cartesian3R)
    (cameraCartographicHeight : ℚ) : ℚ :=
  let g := effectiveGeom mode st projectedSW projectedNE
  let cameraHeight :=
    if mode = .SCENE3D then cameraCartographicHeight else cameraCartesianPosition.x
  cameraHeight - g.maximumHeight

/-- The `result` accumulator of `getDistanceToTile` (source lines 634-650):
the squares of the positive plane excesses — west else east, south else
north, plus the vertical excess. -/
def getDistanceToTileResult (mode : SceneMode) (st : SurfaceTileGeom)
    (projectedSW projectedNE cameraCartesianPosition : Cartesian3R)
    (cameraCartographicHeight : ℚ) : ℚ :=
  let dW := distanceToWestPlane mode st projectedSW projectedNE cameraCartesianPosition
  let dS := distanceToSouthPlane mode st projectedSW projectedNE cameraCartesianPosition
  let dE := distanceToEastPlane mode st projectedSW projectedNE cameraCartesianPosition
  let dN := distanceToNorthPlane mode st projectedSW projectedNE cameraCartesianPosition
  let dT := distanceFromTop mode st projectedSW projectedNE cameraCartesianPosition
    cameraCartographicHeight
  let result : ℚ := 0
  let result := if 0 < dW then result + dW * dW else if 0 < dE then result + dE * dE else result
  let result := if 0 < dS then result + dS * dS else if 0 < dN then result + dN * dN else result
  let result := if 0 < dT then result + dT * dT else result
  result

/-- `getDistanceToTile` (source lines 591-653): the square root of the
accumulated result (line 652).  Only this last step leaves exact arithmetic. -/
noncomputable def getDistanceToTile (mode : SceneMode) (st : SurfaceTileGeom)
    (projectedSW projectedNE cameraCartesianPosition : Cartesian3R)
    (cameraCartographicHeight : ℚ) : ℝ :=
  Real.sqrt
    ((getDistanceToTileResult mode st projectedSW projectedNE cameraCartesianPosition
      cameraCartographicHeight : ℚ) : ℝ)

/-- Imagery readiness states the render loop filters on (ImageryState
collaborator): READY versus anything else. -/
inductive ImageryReadyState where
  | READY
  | notReady
deriving DecidableEq, Repr

/-- The per-imagery data the render loop's filter reads (source line 463): the
imagery state and the owning layer's alpha.  A layer alpha may be a constant
or a per-tile callback ("typeof alpha === 'function'"); only a constant can
compare equal to 0.0, so alpha is `some v` for a constant and `none` for a
callback. -/
structure RenderImagery where
  state : ImageryReadyState
  alpha : Option ℚ
deriving DecidableEq, Repr

/-- A TileImagery as the render loop sees it: its readyImagery slot, which may
be empty while the overlay is still loading. -/
structure RenderTileImagery where
  readyImagery : Option RenderImagery
deriving DecidableEq, Repr

/-- The filter on source line 463: an entry contributes a daytime texture only
when its ready imagery exists, is READY, and its layer alpha is not the
constant 0. -/
def passesTextureFilter (ti : RenderTileImagery) : Bool :=
  match ti.readyImagery with
  | none => false
  | some im => im.state = ImageryReadyState.READY ∧ ¬ im.alpha = some 0

/-- The provider state touched by the draw-command pool: the pool arrays
(commands identified by allocation order), the per-frame used counter, the
allocation counter giving fresh identities, and the per-texture-count render
lists (source lines 88-91). -/
structure ProviderPool where
  drawCommands : List Nat
  uniformMaps : List Nat
  usedDrawCommands : Nat
  nextCommandId : Nat
  tilesToRenderByTextureCount : List (List Nat)
deriving DecidableEq, Repr

/-- The provider constructor's pool fields (source lines 88-91). -/
def initialPool : ProviderPool :=
  { drawCommands := []
    uniformMaps := []
    usedDrawCommands := 0
    nextCommandId := 0
    tilesToRenderByTextureCount := [] }

/-- Claiming a draw-command/uniform-map pair (source lines 415-432): when the
pool is exhausted a fresh pair is allocated and pushed, otherwise the pair at
the used-count index is reused; either way the used counter then advances. -/
def claimSlot (p : ProviderPool) : Nat × ProviderPool :=
  if p.drawCommands.length ≤ p.usedDrawCommands then
    (p.nextCommandId,
      { p with
        drawCommands := p.drawCommands ++ [p.nextCommandId]
        uniformMaps := p.uniformMaps ++ [p.nextCommandId]
        usedDrawCommands := p.usedDrawCommands + 1
        nextCommandId := p.nextCommandId + 1 })
  else
    (p.drawCommands.getD p.usedDrawCommands 0,
      { p with usedDrawCommands := p.usedDrawCommands + 1 })

/-- Appending a command to the render list for its texture count (source lines
543-546): the array grows as needed (a JavaScript index write past the end),
the list at that index is created when that texture count has not occurred
yet, and the command is pushed onto it. -/
def pushBucket : List (List Nat) → Nat → Nat → List (List Nat)
  | [], 0, cmd => [[cmd]]
  | [], i + 1, cmd => [] :: pushBucket [] i cmd
  | bucket :: rest, 0, cmd => (bucket ++ [cmd]) :: rest
  | bucket :: rest, i + 1, cmd => bucket :: pushBucket rest i cmd

/-- The inner texture-gathering loop (source lines 458-528): consumes imagery
entries while texture slots remain, counting the ones that pass the filter;
it stops when the texture budget is full, leaving the rest for the next
command. -/
def gatherTextures (maxTextures : Nat) :
    Nat → List RenderTileImagery → Nat × List RenderTileImagery
  | count, [] => (count, [])
  | count, ti :: rest =>
    if count < maxTextures then
      if passesTextureFilter ti then
        gatherTextures maxTextures (count + 1) rest
      else
        gatherTextures maxTextures count rest
    else
      (count, ti :: rest)

/-- Claiming a slot and filing the claimed command under texture count `n`
(the pool effect of one iteration of the `renderTile` do-while body). -/
def poolFile (p : ProviderPool) (n : Nat) : ProviderPool :=
  { (claimSlot p).2 with
    tilesToRenderByTextureCount :=
      pushBucket (claimSlot p).2.tilesToRenderByTextureCount n (claimSlot p).1 }

/-- The do-while command-emission loop of `renderTile` (source lines 409-570),
projected onto the pool state: each iteration claims a pool slot, gathers up
to `maxTextures` ready textures, files the command under its texture count,
and repeats while imagery entries remain.  The fuel argument dominates the
iteration count; `renderTile` supplies `imagery.length + 1`, which is enough
whenever `maxTextures` is positive (each later iteration consumes at least
one imagery entry, as in the source). -/
def renderTileLoop (maxTextures : Nat) :
    Nat → List RenderTileImagery → ProviderPool → ProviderPool
  | 0, _, p => p
  | fuel + 1, imagery, p =>
    let gathered := gatherTextures maxTextures 0 imagery
    let p2 := poolFile p gathered.1
    match gathered.2 with
    | [] => p2
    | ti :: rest' => renderTileLoop maxTextures fuel (ti :: rest') p2

/-- `renderTile` (source lines 330-571) projected onto the pool state. -/
def renderTile (maxTextures : Nat) (imagery : List RenderTileImagery)
    (p : ProviderPool) : ProviderPool :=
  renderTileLoop maxTextures (imagery.length + 1) imagery p

/-- The pool bookkeeping of `beginFrame` (source lines 206-214): every defined
per-texture-count render list has its length reset to 0, and the used counter
resets; the command and uniform-map arrays are untouched. -/
def beginFrame (p : ProviderPool) : ProviderPool :=
  { p with
    tilesToRenderByTextureCount := p.tilesToRenderByTextureCount.map fun _ => []
    usedDrawCommands := 0 }

/-- `endFrame` (source lines 217-230): appends the accumulated commands to the
frame command list, grouped by ascending texture count. -/
def endFrame (p : ProviderPool) (commandList : List Nat) : List Nat :=
  commandList ++ p.tilesToRenderByTextureCount.flatten

/-- A frame's worth of `renderTile` calls after `beginFrame`: each call gives
the texture-unit budget and the tile's imagery list. -/
def runRenderCalls (p : ProviderPool) :
    List (Nat × List RenderTileImagery) → ProviderPool
  | [] => p
  | (maxTextures, imagery) :: calls => runRenderCalls (renderTile maxTextures imagery p) calls

/-- A TileImagery as `_onLayerRemoved` sees it: the loading and ready imagery
slots, each carrying the identity of its owning layer when present (the source
compares `imagery.imageryLayer` against the removed layer by object identity;
layers are identified here by their unique index). -/
structure TileImageryRef where
  loadingImagery : Option Nat
  readyImagery : Option Nat
deriving DecidableEq, Repr

/-- The imagery whose layer the removal loop inspects (source lines 679-682):
the loading imagery, or the ready imagery when no loading one exists. -/
def TileImageryRef.effectiveLayer (ti : TileImageryRef) : Option Nat :=
  match ti.loadingImagery with
  | some l => some l
  | none => ti.readyImagery

/-- The removed layer as the handler sees it: its identity and whether it is
the base layer. -/
structure ImageryLayerRef where
  id : Nat
  isBase : Bool
deriving DecidableEq, Repr

/-- The per-tile state `_onLayerRemoved` touches. -/
structure SurfaceTileImageryState where
  imagery : List TileImageryRef
  isRenderable : Bool
deriving DecidableEq, Repr

/-- The scan loop of `_onLayerRemoved` (source lines 677-694): walks the
entries with index `i`, records the start of the first run of entries whose
layer is the removed one, frees and counts each entry of the run, and breaks
at the first non-matching entry after the run started.  Returns the recorded
start (none stands for the source's -1), the destroyed count, and the freed
entries in order. -/
def scanRun (layer : Nat) :
    List TileImageryRef → Option Nat → Nat → Nat → List TileImageryRef →
    Option Nat × Nat × List TileImageryRef
  | [], start, _, numDestroyed, freed => (start, numDestroyed, freed)
  | ti :: rest, start, i, numDestroyed, freed =>
    if ti.effectiveLayer = some layer then
      scanRun layer rest (some (start.getD i)) (i + 1) (numDestroyed + 1) (freed ++ [ti])
    else if start.isSome then
      (start, numDestroyed, freed)
    else
      scanRun layer rest start (i + 1) numDestroyed freed

/-- Array.prototype.splice(start, count) restricted to removal. -/
def spliceOut (l : List TileImageryRef) (start count : Nat) : List TileImageryRef :=
  l.take start ++ l.drop (start + count)

/-- The body of `_onLayerRemoved` for one loaded tile (source lines 672-702):
scan, splice out the found run, and mark the tile non-renderable when the
removed layer is the base layer.  The freed entries are returned so the
resource release per removed entry is observable. -/
def onLayerRemovedTile (layer : ImageryLayerRef) (tile : SurfaceTileImageryState) :
    SurfaceTileImageryState × List TileImageryRef :=
  let scanned := scanRun layer.id tile.imagery none 0 0 []
  let newImagery :=
    match scanned.1 with
    | some s => spliceOut tile.imagery s scanned.2.1
    | none => tile.imagery
  let renderable := if layer.isBase then false else tile.isRenderable
  ({ imagery := newImagery, isRenderable := renderable }, scanned.2.2)

/-!
Concrete inputs used by the witness theorems below.
-/

/-- A freshly constructed content provider (all handles 0). -/
def exContent : ContentProvider := mkContentProvider 0 0 0 0 0

/-- A well-formed i3dm buffer: version 1, a 2-byte batch table holding the
JSON text of an empty object, no glTF bytes, format 1, and a single instance
record whose batch id is 5. -/
def exBuf : List Nat :=
  [0x69, 0x33, 0x64, 0x6d] ++ [1, 0, 0, 0] ++ [48, 0, 0, 0] ++ [2, 0, 0, 0] ++
  [0, 0, 0, 0] ++ [1, 0, 0, 0] ++ [1, 0, 0, 0] ++ [0x7b, 0x7d] ++
  [9, 8, 7, 6, 5, 4, 3, 2] ++ [2, 3, 4, 5, 6, 7, 8, 9] ++ [5, 0]

/-- A well-formed i3dm buffer with no batch table: version 1, no glTF bytes,
format 1, and two 16-byte instance records (batch ids fall back to the record
indexes). -/
def exBufNoBT : List Nat :=
  [0x69, 0x33, 0x64, 0x6d] ++ [1, 0, 0, 0] ++ [60, 0, 0, 0] ++ [0, 0, 0, 0] ++
  [0, 0, 0, 0] ++ [1, 0, 0, 0] ++ [2, 0, 0, 0] ++
  [9, 8, 7, 6, 5, 4, 3, 2] ++ [2, 3, 4, 5, 6, 7, 8, 9] ++
  [1, 1, 1, 1, 1, 1, 1, 1] ++ [2, 2, 2, 2, 2, 2, 2, 2]

/-- A model instance collection with two decoded instances. -/
def exMic : ModelInstanceCollection :=
  { instances :=
      [{ modelMatrix := { origin := { lonBits := 0, latBits := 0, heightBits := 0 } }
         batchId := 0 },
       { modelMatrix := { origin := { lonBits := 1, latBits := 1, heightBits := 0 } }
         batchId := 1 }]
    batchTableResources := { featuresLength := 2, batchTable := none }
    boundingVolume := 0
    url := none
    gltf := some []
    basePath := some 0 }

/-- An empty model instance collection. -/
def exMicEmpty : ModelInstanceCollection :=
  { instances := []
    batchTableResources := { featuresLength := 0, batchTable := none }
    boundingVolume := 0
    url := none
    gltf := some []
    basePath := some 0 }

/-- A content provider holding `exMic`, as after a successful decode. -/
def exContentLoaded : ContentProvider :=
  { exContent with
    modelInstanceCollection := some exMic
    batchTableResources := some { featuresLength := 2, batchTable := none }
    state := .PROCESSING
    processingPromise := some .resolved }

/-- A content provider holding an empty collection. -/
def exContentEmpty : ContentProvider :=
  { exContent with
    modelInstanceCollection := some exMicEmpty
    batchTableResources := some { featuresLength := 0, batchTable := none }
    state := .PROCESSING
    processingPromise := some .resolved }

/-- A frame consisting of `n` `renderTile` calls on tiles with no imagery. -/
def emptyFrameCalls (n : Nat) : List (Nat × List RenderTileImagery) :=
  List.replicate n (8, [])

/-- The pool after a first frame of 2 draw requests. -/
def poolAfter1 : ProviderPool := runRenderCalls (beginFrame initialPool) (emptyFrameCalls 2)

/-- The pool after a second frame of 5 draw requests. -/
def poolAfter2 : ProviderPool := runRenderCalls (beginFrame poolAfter1) (emptyFrameCalls 5)

/-- The pool after a third frame of 1 draw request. -/
def poolAfter3 : ProviderPool := runRenderCalls (beginFrame poolAfter2) (emptyFrameCalls 1)

/-- A tile imagery entry with a READY imagery at constant alpha 1. -/
def tiReady : RenderTileImagery := { readyImagery := some { state := .READY, alpha := some 1 } }

/-- A tile imagery entry with no ready imagery yet. -/
def tiBad : RenderTileImagery := { readyImagery := none }

/-- A tile imagery entry loading from layer `l`. -/
def tiL (l : Nat) : TileImageryRef := { loadingImagery := some l, readyImagery := none }

/-- A loaded tile with entries from three distinct layers, sorted by layer. -/
def exTile : SurfaceTileImageryState :=
  { imagery := [tiL 0, tiL 1, tiL 1, tiL 2], isRenderable := true }

/-- A tile bounding box at the origin with axis-aligned unit normals, used by
the distance witnesses. -/
def exGeom : SurfaceTileGeom :=
  { southwestCornerCartesian := ⟨0, 0, 0⟩
    northeastCornerCartesian := ⟨0, 0, 0⟩
    westNormal := ⟨1, 0, 0⟩
    eastNormal := ⟨-1, 0, 0⟩
    southNormal := ⟨0, -1, 0⟩
    northNormal := ⟨0, 1, 0⟩
    maximumHeight := 0 }

/-!
Helper lemmas.
-/

/-- `initializeContent` never touches the ready promise: the terminal-outcome
slot is settled only by the delivery failure handler and the collection
callbacks. -/
theorem initializeContent_keeps_readyPromise (parseJson : List Nat → Option (List Nat))
    (c : ContentProvider) (b : List Nat) (off : Nat) :
    (initializeContent parseJson c b off).1.readyPromise = c.readyPromise := by
  by_cases h1 : getMagic b off = magicI3dm
  · by_cases h2 : getUint32 b (off + 4) = 1
    · by_cases h3 : getUint32 b (off + 20) ≠ 0 ∧ getUint32 b (off + 20) ≠ 1
      · simp [initializeContent, h1, h2, h3]
      · by_cases h4 : 0 < getUint32 b (off + 12)
        · rcases hp : parseJson (listSlice b (off + 28) (getUint32 b (off + 12))) with _ | j
          · simp [initializeContent, initializeAfterChecks, h1, h2, h3, h4, hp]
          · simp [initializeContent, initializeAfterChecks, initializeTail, h1, h2, h3, h4, hp]
        · simp [initializeContent, initializeAfterChecks, initializeTail, h1, h2, h3, h4]
    · simp [initializeContent, h1, h2]
  · simp [initializeContent, h1]

/-- Settling an already settled deferred is a no-op. -/
theorem Deferred.settle_of_settled (d : Deferred) (o : PromiseOutcome) (o0 : PromiseOutcome)
    (h : d = some o0) : d.settle o = some o0 := by
  subst h; rfl

/-- Every single internal transition attempt leaves a settled ready promise
settled with its original outcome. -/
theorem stepEvent_preserves_settled (parseJson : List Nat → Option (List Nat))
    (c : ContentProvider) (o : PromiseOutcome)
    (e : ContentEvent) (h : c.readyPromise = some o) :
    (stepEvent parseJson c e).readyPromise = some o := by
  cases e with
  | collectionReady =>
    simpa [stepEvent, onCollectionReady, Deferred.resolveD] using
      Deferred.settle_of_settled c.readyPromise .resolved o h
  | collectionFailed e =>
    simpa [stepEvent, onCollectionFailed, Deferred.rejectD] using
      Deferred.settle_of_settled c.readyPromise (.rejected e) o h
  | delivery outcome =>
    cases outcome with
    | error e =>
      simpa [stepEvent, onDelivery, Deferred.rejectD] using
        Deferred.settle_of_settled c.readyPromise (.rejected e) o h
    | ok buf =>
      by_cases hd : c.destroyed
      · simpa [stepEvent, onDelivery, hd, Deferred.rejectD] using
          Deferred.settle_of_settled c.readyPromise (.rejected .tilesetDestroyed) o h
      · have hkeep := initializeContent_keeps_readyPromise parseJson c buf 0
        rcases hinit : initializeContent parseJson c buf 0 with ⟨c1, r⟩
        rw [hinit] at hkeep
        cases r with
        | error e =>
          simp only [stepEvent, onDelivery, hd, Bool.false_eq_true, if_false, hinit]
          simpa [Deferred.rejectD] using
            Deferred.settle_of_settled c1.readyPromise (.rejected e) o (hkeep.trans h)
        | ok u =>
          simp only [stepEvent, onDelivery, hd, Bool.false_eq_true, if_false, hinit]
          exact hkeep.trans h
  | requestAttempt admitted =>
    by_cases ha : admitted <;> simp [stepEvent, request, ha, h]
  | initializeCall b off =>
    simpa [stepEvent] using (initializeContent_keeps_readyPromise parseJson c b off).trans h

/-- The decode loop produces exactly the declared number of records. -/
theorem readInstances_length (view : List Nat) (hbt : Bool) (count i off : Nat) :
    (readInstances view hbt count i off).length = count := by
  induction count generalizing i off with
  | zero => rfl
  | succ n ih => simp [readInstances, ih]

/-- Closed form of the decode loop: record `j` is read at view offset
`off + j * stride` with loop index `i + j`. -/
theorem readInstances_get? (view : List Nat) (hbt : Bool) (count i off j : Nat)
    (hj : j < count) :
    (readInstances view hbt count i off).get? j =
      some (readInstance view (off + j * instanceByteLen hbt) hbt (i + j)) := by
  induction count generalizing i off j with
  | zero => omega
  | succ n ih =>
    cases j with
    | zero => simp [readInstances]
    | succ j =>
      have harith : off + instanceByteLen hbt + j * instanceByteLen hbt =
          off + (j + 1) * instanceByteLen hbt := by ring
      have hidx : i + 1 + j = i + (j + 1) := by omega
      calc (readInstances view hbt (n + 1) i off).get? (j + 1)
          = (readInstances view hbt n (i + 1) (off + instanceByteLen hbt)).get? j := by
            simp [readInstances]
        _ = some (readInstance view (off + instanceByteLen hbt + j * instanceByteLen hbt)
              hbt (i + 1 + j)) := ih (i + 1) (off + instanceByteLen hbt) j (by omega)
        _ = some (readInstance view (off + (j + 1) * instanceByteLen hbt) hbt (i + (j + 1))) := by
            rw [harith, hidx]

/-- Reading inside a DataView slice equals reading the underlying buffer at
the translated offset, as long as the read stays inside the slice bounds. -/
theorem leRead_listSlice (b : List Nat) (base len : Nat) :
    ∀ (n off : Nat), off + n ≤ len →
      leRead (listSlice b base len) off n = leRead b (base + off) n := by
  intro n
  induction n with
  | zero => intro off _; rfl
  | succ m ih =>
    intro off h
    have hoff : off < len := by omega
    have hgd : (listSlice b base len).getD off 0 = b.getD (base + off) 0 := by
      simp [listSlice, List.getD_eq_getElem?_getD, List.getElem?_take, hoff,
        List.getElem?_drop]
    have hrec := ih (off + 1) (by omega)
    simp only [leRead, hgd, hrec, Nat.add_assoc]

/-!
Claim theorems.
-/

/-- C1: on a magic mismatch, an unsupported version, or an asset-format value
outside 0 and 1, `initialize` throws the corresponding format error
deterministically and returns the content object exactly as it was: no field
(in particular `_batchTableResources` and `_modelInstanceCollection`) is
mutated before the throw. -/
theorem initializeContent_checks_leave_content_unchanged
    (parseJson : List Nat → Option (List Nat))
    (c : ContentProvider) (b : List Nat) (off : Nat) :
    (getMagic b off ≠ magicI3dm →
      initializeContent parseJson c b off =
        (c, .error (.invalidMagic (getMagic b off)))) ∧
    (getMagic b off = magicI3dm → getUint32 b (off + 4) ≠ 1 →
      initializeContent parseJson c b off =
        (c, .error (.unsupportedVersion (getUint32 b (off + 4))))) ∧
    (getMagic b off = magicI3dm → getUint32 b (off + 4) = 1 →
      getUint32 b (off + 20) ≠ 0 → getUint32 b (off + 20) ≠ 1 →
      initializeContent parseJson c b off =
        (c, .error (.unsupportedGltfFormat (getUint32 b (off + 20))))) := by
  refine ⟨?_, ?_, ?_⟩
  · intro h1
    simp [initializeContent, h1]
  · intro h1 h2
    simp [initializeContent, h1, h2]
  · intro h1 h2 h3 h4
    simp [initializeContent, h1, h2, h3, h4]

/-- C1 witness: the three error paths on concrete malformed buffers — a wrong
magic tag, version 2, and asset format 7 — each return the untouched content
with the matching error. -/
theorem initializeContent_checks_witness :
    initializeContent (fun _ => none) exContent [1, 2, 3] 0 =
      (exContent, .error (.invalidMagic [1, 2, 3, 0])) ∧
    initializeContent (fun _ => none) exContent [0x69, 0x33, 0x64, 0x6d, 2, 0, 0, 0] 0 =
      (exContent, .error (.unsupportedVersion 2)) ∧
    initializeContent (fun _ => none) exContent
        [0x69, 0x33, 0x64, 0x6d, 1, 0, 0, 0, 0, 0, 0, 0, 0, 0, 0, 0,
         0, 0, 0, 0, 7, 0, 0, 0, 0, 0, 0, 0] 0 =
      (exContent, .error (.unsupportedGltfFormat 7)) :=
  ⟨(initializeContent_checks_leave_content_unchanged (fun _ => none)
      exContent [1, 2, 3] 0).1 (by decide),
   (initializeContent_checks_leave_content_unchanged (fun _ => none) exContent
      [0x69, 0x33, 0x64, 0x6d, 2, 0, 0, 0] 0).2.1 (by decide) (by decide),
   (initializeContent_checks_leave_content_unchanged (fun _ => none) exContent
      [0x69, 0x33, 0x64, 0x6d, 1, 0, 0, 0, 0, 0, 0, 0, 0, 0, 0, 0,
       0, 0, 0, 0, 7, 0, 0, 0, 0, 0, 0, 0] 0).2.2 (by decide) (by decide) (by decide) (by decide)⟩

/-- C2 counterexample: delivery to a content destroyed while LOADING is not
swallowed silently — the rejection built by the destroyed-check flows into the
`otherwise` handler, which transitions the state to FAILED and rejects the
terminal-outcome notification with the destruction reason. -/
theorem destroyed_delivery_rejects_ready_promise :
    (onDelivery (fun _ => none)
        { exContent with state := .LOADING, destroyed := true } (.ok [])).state
        = .FAILED ∧
    (onDelivery (fun _ => none)
        { exContent with state := .LOADING, destroyed := true } (.ok [])).readyPromise
        = some (.rejected .tilesetDestroyed) := by
  decide

/-- C2 amended: when the in-flight byte delivery resolves on a destroyed
content, the continuation observes the destroyed flag and discards the bytes
without calling `initialize` (so no transition to PROCESSING and no decode
side effects), but the resulting rejection reaches the failure handler: the
state becomes FAILED and the terminal-outcome notification is rejected with
the destruction reason rather than being swallowed silently. -/
theorem destroyed_delivery_discards_and_fails
    (parseJson : List Nat → Option (List Nat))
    (c : ContentProvider) (buf : List Nat) (hd : c.destroyed = true) :
    onDelivery parseJson c (.ok buf) =
      { c with state := .FAILED,
               readyPromise := c.readyPromise.rejectD .tilesetDestroyed } := by
  simp [onDelivery, hd]

/-- C2 witness: the amended behavior at a concrete destroyed, loading
content. -/
theorem destroyed_delivery_discards_witness :
    onDelivery (fun _ => none)
        { exContent with state := .LOADING, destroyed := true } (.ok [1, 2]) =
      { exContent with state := .FAILED, destroyed := true,
                       readyPromise := some (.rejected .tilesetDestroyed) } :=
  destroyed_delivery_discards_and_fails (fun _ => none)
    { exContent with state := .LOADING, destroyed := true } [1, 2] rfl

/-- C6: `getFeature` is idempotent — the first in-range call builds the
feature array once (one handle per instance, handle `i` bound to the content
tileset, the batch table resources, and batch id `i`), returns the handle at
the requested batch id, and any further call with the same batch id on the
resulting content returns the identical cached handle without rebuilding the
array. -/
theorem getFeature_idempotent_cached
    (c : ContentProvider) (mic : ModelInstanceCollection) (b : Nat)
    (hmic : c.modelInstanceCollection = some mic)
    (hfeat : c.features = none)
    (hb : b < mic.length) :
    ∃ fs : List Feature,
      (createFeatures c).features = some fs ∧
      fs.length = mic.length ∧
      (∀ i, i < mic.length → fs.get? i = some
        { tileset := c.tileset, batchTableResources := c.batchTableResources, batchId := i }) ∧
      getFeature c (some (b : Int)) = .ok (createFeatures c, fs.get? b) ∧
      getFeature (createFeatures c) (some (b : Int)) = .ok (createFeatures c, fs.get? b) ∧
      createFeatures (createFeatures c) = createFeatures c := by
  have hlen : c.featuresLength = mic.length := by
    simp [ContentProvider.featuresLength, hmic]
  have hpos : 0 < c.featuresLength := hlen ▸ Nat.pos_of_ne_zero (by omega)
  have hcf : createFeatures c =
      { c with features := some ((List.range c.featuresLength).map fun i =>
          { tileset := c.tileset, batchTableResources := c.batchTableResources,
            batchId := i }) } := by
    rw [createFeatures, if_pos ⟨hfeat, hpos⟩]
  refine ⟨(List.range c.featuresLength).map fun i =>
    { tileset := c.tileset, batchTableResources := c.batchTableResources, batchId := i },
    ?_, ?_, ?_, ?_, ?_, ?_⟩
  · rw [hcf]
  · simp [hlen]
  · intro i hi
    rw [List.get?_map, List.get?_range (hlen ▸ hi)]
    rfl
  · rw [getFeature]
    have hnot : ¬ ((b : Int) < 0 ∨ (c.featuresLength : Int) ≤ (b : Int)) := by
      push_neg
      constructor
      · exact Int.ofNat_nonneg b
      · rw [hlen]; exact_mod_cast hb
    rw [if_neg hnot, hcf]
    simp
  · have hlen2 : (createFeatures c).featuresLength = mic.length := by
      rw [hcf]; simp [ContentProvider.featuresLength, hmic]
    rw [getFeature]
    have hnot : ¬ ((b : Int) < 0 ∨ ((createFeatures c).featuresLength : Int) ≤ (b : Int)) := by
      push_neg
      constructor
      · exact Int.ofNat_nonneg b
      · rw [hlen2]; exact_mod_cast hb
    rw [if_neg hnot]
    have hidem : createFeatures (createFeatures c) = createFeatures c := by
      rw [createFeatures]
      rw [hcf]
      simp
    rw [hidem, hcf]
    simp
  · rw [createFeatures]
    rw [hcf]
    simp

/-- C6 witness: on a content with two instances and no feature array, the
first call builds the two handles, returns handle 1, and the second call
returns the same handle with the same state. -/
theorem getFeature_idempotent_witness :
    ∃ fs : List Feature,
      (createFeatures exContentLoaded).features = some fs ∧
      fs.length = 2 ∧
      (∀ i, i < 2 → fs.get? i = some
        { tileset := exContentLoaded.tileset,
          batchTableResources := exContentLoaded.batchTableResources, batchId := i }) ∧
      getFeature exContentLoaded (some ((1 : Nat) : Int)) =
        .ok (createFeatures exContentLoaded, fs.get? 1) ∧
      getFeature (createFeatures exContentLoaded) (some ((1 : Nat) : Int)) =
        .ok (createFeatures exContentLoaded, fs.get? 1) ∧
      createFeatures (createFeatures exContentLoaded) = createFeatures exContentLoaded :=
  getFeature_idempotent_cached exContentLoaded exMic 1 rfl rfl (by decide)

/-- C7: `getFeature` throws the precondition-violation error exactly when the
batch id is undefined, negative, or at least `featuresLength`; in particular
with zero instances every call throws. -/
theorem getFeature_out_of_range_iff
    (c : ContentProvider) (mic : ModelInstanceCollection)
    (hmic : c.modelInstanceCollection = some mic) :
    (∀ bid : Option Int,
      getFeature c bid = .error (.invalidBatchId bid mic.length) ↔
        (bid = none ∨ ∃ v : Int, bid = some v ∧ (v < 0 ∨ (mic.length : Int) ≤ v))) ∧
    (mic.length = 0 → ∀ bid : Option Int,
      getFeature c bid = .error (.invalidBatchId bid mic.length)) := by
  have hlen : c.featuresLength = mic.length := by
    simp [ContentProvider.featuresLength, hmic]
  constructor
  · intro bid
    cases bid with
    | none => simp [getFeature, hlen]
    | some v =>
      by_cases hv : v < 0 ∨ (mic.length : Int) ≤ v
      · rw [getFeature, hlen, if_pos hv]
        simp [hv]
      · rw [getFeature, hlen, if_neg hv]
        simp [hv]
  · intro h0 bid
    cases bid with
    | none => simp [getFeature, hlen]
    | some v =>
      have hv : v < 0 ∨ (mic.length : Int) ≤ v := by
        rw [h0]
        omega
      rw [getFeature, hlen, if_pos hv]

/-- C7 witness: on a content with two instances, batch ids -1 and 2 throw and
the error is exactly the precondition violation; on a content whose collection
is empty, batch id 0 throws as well. -/
theorem getFeature_out_of_range_witness :
    getFeature exContentLoaded (some (-1)) = .error (.invalidBatchId (some (-1)) 2) ∧
    getFeature exContentLoaded (some 2) = .error (.invalidBatchId (some 2) 2) ∧
    getFeature exContentEmpty none = .error (.invalidBatchId none 0) :=
  ⟨((getFeature_out_of_range_iff exContentLoaded exMic rfl).1 (some (-1))).2
      (Or.inr ⟨-1, rfl, Or.inl (by decide)⟩),
   ((getFeature_out_of_range_iff exContentLoaded exMic rfl).1 (some 2)).2
      (Or.inr ⟨2, rfl, Or.inr (by decide)⟩),
   (getFeature_out_of_range_iff exContentEmpty exMicEmpty rfl).2 rfl none⟩

/-- C9: the terminal-outcome notification settles at most once — once the
ready promise holds an outcome, no sequence of further internal transition
attempts (collection callbacks, delivery settlements, request or initialize
cycles) changes it. -/
theorem readyPromise_single_resolution
    (parseJson : List Nat → Option (List Nat))
    (c : ContentProvider) (o : PromiseOutcome) (es : List ContentEvent)
    (h : c.readyPromise = some o) :
    (runEvents parseJson c es).readyPromise = some o := by
  induction es generalizing c with
  | nil => exact h
  | cons e es ih =>
    exact ih (stepEvent parseJson c e) (stepEvent_preserves_settled parseJson c o e h)

/-- C9 witness: a content whose ready promise is already resolved keeps that
outcome across a later failure callback, a second readiness callback, and a
fresh request/delivery cycle. -/
theorem readyPromise_single_resolution_witness :
    (runEvents (fun _ => none)
      { exContent with state := .READY, readyPromise := some .resolved }
      [.collectionFailed (.collectionFailure 3), .collectionReady,
       .requestAttempt true, .delivery (.ok exBuf)]).readyPromise = some .resolved :=
  readyPromise_single_resolution (fun _ => none)
    { exContent with state := .READY, readyPromise := some .resolved }
    .resolved
    [.collectionFailed (.collectionFailure 3), .collectionReady,
     .requestAttempt true, .delivery (.ok exBuf)]
    rfl

/-- C3: on a well-formed buffer (valid magic, version 1, asset format 0 or 1,
a batch table — when present — whose bytes the external JSON parser accepts,
and enough bytes for the declared sections), decode succeeds and reads each
of the N instance records as two little-endian 8-byte doubles — longitude at
the record start, latitude 8 bytes in — with height 0; the record's batch id
is the little-endian 2-byte value after the doubles exactly when the batch
table is present (batch-table byte length positive), and the record's
0-based index otherwise. -/
theorem initializeContent_instance_record_layout
    (parseJson : List Nat → Option (List Nat)) (c : ContentProvider) (b : List Nat)
    (hmagic : getMagic b 0 = magicI3dm)
    (hver : getUint32 b 4 = 1)
    (hfmt : getUint32 b 20 = 0 ∨ getUint32 b 20 = 1)
    (hjson : 0 < getUint32 b 12 →
      (parseJson (listSlice b 28 (getUint32 b 12))).isSome = true)
    (hlen : 28 + getUint32 b 12 + getUint32 b 16 +
      getUint32 b 24 * instanceByteLen (decide (0 < getUint32 b 12)) ≤ b.length) :
    ∃ mic : ModelInstanceCollection,
      (initializeContent parseJson c b 0).2 = .ok () ∧
      (initializeContent parseJson c b 0).1.modelInstanceCollection = some mic ∧
      mic.instances.length = getUint32 b 24 ∧
      ∀ j, j < getUint32 b 24 →
        mic.instances.get? j = some
          { modelMatrix := { origin :=
              { lonBits := leRead b (28 + getUint32 b 12 + getUint32 b 16 +
                  j * instanceByteLen (decide (0 < getUint32 b 12))) 8
                latBits := leRead b (28 + getUint32 b 12 + getUint32 b 16 +
                  j * instanceByteLen (decide (0 < getUint32 b 12)) + 8) 8
                heightBits := 0 } }
            batchId :=
              if 0 < getUint32 b 12 then
                leRead b (28 + getUint32 b 12 + getUint32 b 16 +
                  j * instanceByteLen (decide (0 < getUint32 b 12)) + 16) 2
              else j } := by
  have h3 : ¬ (getUint32 b 20 ≠ 0 ∧ getUint32 b 20 ≠ 1) := by
    rcases hfmt with h | h <;> simp [h]
  have hred : initializeContent parseJson c b 0 =
      initializeAfterChecks parseJson c b 28 (getUint32 b 12) (getUint32 b 16)
        (getUint32 b 20) (getUint32 b 24) := by
    simp [initializeContent, hmagic, hver, h3]
  rw [hred]
  by_cases hbt : 0 < getUint32 b 12
  · obtain ⟨j0, hj0⟩ := Option.isSome_iff_exists.mp (hjson hbt)
    have hred2 : initializeAfterChecks parseJson c b 28 (getUint32 b 12)
        (getUint32 b 16) (getUint32 b 20) (getUint32 b 24) =
        initializeTail
          { c with batchTableResources := some (BatchTableResources.mk (getUint32 b 24) (some j0)) }
          b (28 + getUint32 b 12) (getUint32 b 16) (getUint32 b 20) (getUint32 b 24)
          (BatchTableResources.mk (getUint32 b 24) (some j0)) true := by
      simp [initializeAfterChecks, hbt, hj0]
    rw [hred2]
    simp only [initializeTail]
    refine ⟨_, by trivial, rfl, readInstances_length _ _ _ _ _, ?_⟩
    intro j hj
    rw [readInstances_get? _ _ _ _ _ _ hj]
    have hmul : (j + 1) * instanceByteLen true =
        j * instanceByteLen true + instanceByteLen true := by ring
    have hibl : instanceByteLen true = 18 := rfl
    have hrec : (j + 1) * instanceByteLen true ≤
        getUint32 b 24 * instanceByteLen true :=
      Nat.mul_le_mul_right _ hj
    rw [readInstance]
    simp only [getFloat64Bits, getUint16, Nat.zero_add]
    rw [leRead_listSlice b _ _ 8 _ (by omega), leRead_listSlice b _ _ 8 _ (by omega),
      leRead_listSlice b _ _ 2 _ (by omega)]
    simp [hbt]
    constructor <;> ring_nf
  · have hz : getUint32 b 12 = 0 := by omega
    have hred2 : initializeAfterChecks parseJson c b 28 (getUint32 b 12)
        (getUint32 b 16) (getUint32 b 20) (getUint32 b 24) =
        initializeTail
          { c with batchTableResources := some (BatchTableResources.mk (getUint32 b 24) none) }
          b 28 (getUint32 b 16) (getUint32 b 20) (getUint32 b 24)
          (BatchTableResources.mk (getUint32 b 24) none) false := by
      simp [initializeAfterChecks, hbt]
    rw [hred2]
    simp only [initializeTail]
    refine ⟨_, by trivial, rfl, readInstances_length _ _ _ _ _, ?_⟩
    intro j hj
    rw [readInstances_get? _ _ _ _ _ _ hj]
    have hmul : (j + 1) * instanceByteLen false =
        j * instanceByteLen false + instanceByteLen false := by ring
    have hibl : instanceByteLen false = 16 := rfl
    have hrec : (j + 1) * instanceByteLen false ≤
        getUint32 b 24 * instanceByteLen false :=
      Nat.mul_le_mul_right _ hj
    rw [readInstance]
    simp only [getFloat64Bits, getUint16, Nat.zero_add]
    rw [leRead_listSlice b _ _ 8 _ (by omega), leRead_listSlice b _ _ 8 _ (by omega)]
    simp [hbt, hz]
    ring_nf

/-- C3 witness: the layout theorem instantiated at the concrete buffer
`exBufNoBT` — no batch table, so the external parser is never consulted and
the two records take their indexes as batch ids. -/
theorem initializeContent_layout_witness :
    ∃ mic : ModelInstanceCollection,
      (initializeContent (fun _ => none) exContent exBufNoBT 0).2 = .ok () ∧
      (initializeContent (fun _ => none) exContent exBufNoBT 0).1.modelInstanceCollection
        = some mic ∧
      mic.instances.length = getUint32 exBufNoBT 24 ∧
      ∀ j, j < getUint32 exBufNoBT 24 →
        mic.instances.get? j = some
          { modelMatrix := { origin :=
              { lonBits := leRead exBufNoBT (28 + getUint32 exBufNoBT 12 +
                  getUint32 exBufNoBT 16 +
                  j * instanceByteLen (decide (0 < getUint32 exBufNoBT 12))) 8
                latBits := leRead exBufNoBT (28 + getUint32 exBufNoBT 12 +
                  getUint32 exBufNoBT 16 +
                  j * instanceByteLen (decide (0 < getUint32 exBufNoBT 12)) + 8) 8
                heightBits := 0 } }
            batchId :=
              if 0 < getUint32 exBufNoBT 12 then
                leRead exBufNoBT (28 + getUint32 exBufNoBT 12 + getUint32 exBufNoBT 16 +
                  j * instanceByteLen (decide (0 < getUint32 exBufNoBT 12)) + 16) 2
              else j } :=
  initializeContent_instance_record_layout (fun _ => none) exContent exBufNoBT
    (by decide) (by decide) (by decide) (by decide) (by decide)

/-- With no positive plane excess the accumulated result is 0 (all three
clamped if-branches fall through). -/
theorem getDistanceToTileResult_inside (mode : SceneMode) (st : SurfaceTileGeom)
    (pSW pNE cam : Cartesian3R) (camH : ℚ)
    (hW : distanceToWestPlane mode st pSW pNE cam ≤ 0)
    (hE : distanceToEastPlane mode st pSW pNE cam ≤ 0)
    (hS : distanceToSouthPlane mode st pSW pNE cam ≤ 0)
    (hN : distanceToNorthPlane mode st pSW pNE cam ≤ 0)
    (hT : distanceFromTop mode st pSW pNE cam camH ≤ 0) :
    getDistanceToTileResult mode st pSW pNE cam camH = 0 := by
  simp only [getDistanceToTileResult]
  rw [if_neg (not_lt.mpr hW), if_neg (not_lt.mpr hE), if_neg (not_lt.mpr hS),
    if_neg (not_lt.mpr hN), if_neg (not_lt.mpr hT)]

/-- With exactly one positive plane excess `dx` the accumulated result is
`dx * dx`, whichever of the five excesses it is. -/
theorem getDistanceToTileResult_single (mode : SceneMode) (st : SurfaceTileGeom)
    (pSW pNE cam : Cartesian3R) (camH : ℚ) (dx : ℚ) (hpos : 0 < dx)
    (hcase :
      (distanceToWestPlane mode st pSW pNE cam = dx ∧
        distanceToEastPlane mode st pSW pNE cam ≤ 0 ∧
        distanceToSouthPlane mode st pSW pNE cam ≤ 0 ∧
        distanceToNorthPlane mode st pSW pNE cam ≤ 0 ∧
        distanceFromTop mode st pSW pNE cam camH ≤ 0) ∨
      (distanceToEastPlane mode st pSW pNE cam = dx ∧
        distanceToWestPlane mode st pSW pNE cam ≤ 0 ∧
        distanceToSouthPlane mode st pSW pNE cam ≤ 0 ∧
        distanceToNorthPlane mode st pSW pNE cam ≤ 0 ∧
        distanceFromTop mode st pSW pNE cam camH ≤ 0) ∨
      (distanceToSouthPlane mode st pSW pNE cam = dx ∧
        distanceToWestPlane mode st pSW pNE cam ≤ 0 ∧
        distanceToEastPlane mode st pSW pNE cam ≤ 0 ∧
        distanceToNorthPlane mode st pSW pNE cam ≤ 0 ∧
        distanceFromTop mode st pSW pNE cam camH ≤ 0) ∨
      (distanceToNorthPlane mode st pSW pNE cam = dx ∧
        distanceToWestPlane mode st pSW pNE cam ≤ 0 ∧
        distanceToEastPlane mode st pSW pNE cam ≤ 0 ∧
        distanceToSouthPlane mode st pSW pNE cam ≤ 0 ∧
        distanceFromTop mode st pSW pNE cam camH ≤ 0) ∨
      (distanceFromTop mode st pSW pNE cam camH = dx ∧
        distanceToWestPlane mode st pSW pNE cam ≤ 0 ∧
        distanceToEastPlane mode st pSW pNE cam ≤ 0 ∧
        distanceToSouthPlane mode st pSW pNE cam ≤ 0 ∧
        distanceToNorthPlane mode st pSW pNE cam ≤ 0)) :
    getDistanceToTileResult mode st pSW pNE cam camH = dx * dx := by
  simp only [getDistanceToTileResult]
  rcases hcase with ⟨h1, h2, h3, h4, h5⟩ | ⟨h1, h2, h3, h4, h5⟩ | ⟨h1, h2, h3, h4, h5⟩ |
    ⟨h1, h2, h3, h4, h5⟩ | ⟨h1, h2, h3, h4, h5⟩
  · rw [if_pos (show 0 < distanceToWestPlane mode st pSW pNE cam by rw [h1]; exact hpos),
      if_neg (not_lt.mpr h3), if_neg (not_lt.mpr h4), if_neg (not_lt.mpr h5), h1, zero_add]
  · rw [if_neg (not_lt.mpr h2),
      if_pos (show 0 < distanceToEastPlane mode st pSW pNE cam by rw [h1]; exact hpos),
      if_neg (not_lt.mpr h3), if_neg (not_lt.mpr h4), if_neg (not_lt.mpr h5), h1, zero_add]
  · rw [if_neg (not_lt.mpr h2), if_neg (not_lt.mpr h3),
      if_pos (show 0 < distanceToSouthPlane mode st pSW pNE cam by rw [h1]; exact hpos),
      if_neg (not_lt.mpr h5), h1, zero_add]
  · rw [if_neg (not_lt.mpr h2), if_neg (not_lt.mpr h3), if_neg (not_lt.mpr h4),
      if_pos (show 0 < distanceToNorthPlane mode st pSW pNE cam by rw [h1]; exact hpos),
      if_neg (not_lt.mpr h5), h1, zero_add]
  · rw [if_neg (not_lt.mpr h2), if_neg (not_lt.mpr h3), if_neg (not_lt.mpr h4),
      if_neg (not_lt.mpr h5),
      if_pos (show 0 < distanceFromTop mode st pSW pNE cam camH by rw [h1]; exact hpos),
      h1, zero_add]

/-- C4: `getDistanceToTile` is the Euclidean norm of the clamped-to-zero axis
excesses — a camera with no positive west/east, south/north, or height excess
is at distance 0, and a camera exceeding exactly one bounding plane by `dx`
with nothing else exceeded is at distance `|dx|`. -/
theorem getDistanceToTile_clamped_excesses (mode : SceneMode) (st : SurfaceTileGeom)
    (pSW pNE cam : Cartesian3R) (camH : ℚ) :
    ((distanceToWestPlane mode st pSW pNE cam ≤ 0 ∧
      distanceToEastPlane mode st pSW pNE cam ≤ 0 ∧
      distanceToSouthPlane mode st pSW pNE cam ≤ 0 ∧
      distanceToNorthPlane mode st pSW pNE cam ≤ 0 ∧
      distanceFromTop mode st pSW pNE cam camH ≤ 0) →
      getDistanceToTile mode st pSW pNE cam camH = 0) ∧
    (∀ dx : ℚ, 0 < dx →
      ((distanceToWestPlane mode st pSW pNE cam = dx ∧
        distanceToEastPlane mode st pSW pNE cam ≤ 0 ∧
        distanceToSouthPlane mode st pSW pNE cam ≤ 0 ∧
        distanceToNorthPlane mode st pSW pNE cam ≤ 0 ∧
        distanceFromTop mode st pSW pNE cam camH ≤ 0) ∨
       (distanceToEastPlane mode st pSW pNE cam = dx ∧
        distanceToWestPlane mode st pSW pNE cam ≤ 0 ∧
        distanceToSouthPlane mode st pSW pNE cam ≤ 0 ∧
        distanceToNorthPlane mode st pSW pNE cam ≤ 0 ∧
        distanceFromTop mode st pSW pNE cam camH ≤ 0) ∨
       (distanceToSouthPlane mode st pSW pNE cam = dx ∧
        distanceToWestPlane mode st pSW pNE cam ≤ 0 ∧
        distanceToEastPlane mode st pSW pNE cam ≤ 0 ∧
        distanceToNorthPlane mode st pSW pNE cam ≤ 0 ∧
        distanceFromTop mode st pSW pNE cam camH ≤ 0) ∨
       (distanceToNorthPlane mode st pSW pNE cam = dx ∧
        distanceToWestPlane mode st pSW pNE cam ≤ 0 ∧
        distanceToEastPlane mode st pSW pNE cam ≤ 0 ∧
        distanceToSouthPlane mode st pSW pNE cam ≤ 0 ∧
        distanceFromTop mode st pSW pNE cam camH ≤ 0) ∨
       (distanceFromTop mode st pSW pNE cam camH = dx ∧
        distanceToWestPlane mode st pSW pNE cam ≤ 0 ∧
        distanceToEastPlane mode st pSW pNE cam ≤ 0 ∧
        distanceToSouthPlane mode st pSW pNE cam ≤ 0 ∧
        distanceToNorthPlane mode st pSW pNE cam ≤ 0)) →
      getDistanceToTile mode st pSW pNE cam camH = |(dx : ℝ)|) := by
  constructor
  · rintro ⟨hW, hE, hS, hN, hT⟩
    rw [getDistanceToTile, getDistanceToTileResult_inside mode st pSW pNE cam camH
      hW hE hS hN hT]
    simp
  · intro dx hpos hcase
    rw [getDistanceToTile, getDistanceToTileResult_single mode st pSW pNE cam camH dx
      hpos hcase]
    push_cast
    rw [show (dx : ℝ) * (dx : ℝ) = (dx : ℝ) ^ 2 by ring, Real.sqrt_sq_eq_abs]

/-- C4 witness: in SCENE3D, with unit normals and corners at the origin, a
camera inside all bounds is at distance 0, and a camera 3 beyond the west
plane only is at distance |3|. -/
theorem getDistanceToTile_witness :
    getDistanceToTile .SCENE3D exGeom ⟨0, 0, 0⟩ ⟨0, 0, 0⟩ ⟨0, 0, 0⟩ (-1) = 0 ∧
    getDistanceToTile .SCENE3D exGeom ⟨0, 0, 0⟩ ⟨0, 0, 0⟩ ⟨3, 0, 0⟩ (-1) = |((3 : ℚ) : ℝ)| := by
  exact ⟨(getDistanceToTile_clamped_excesses .SCENE3D exGeom ⟨0, 0, 0⟩ ⟨0, 0, 0⟩ ⟨0, 0, 0⟩ (-1)).1
      ⟨by norm_num [distanceToWestPlane, effectiveGeom, Cartesian3R.sub, Cartesian3R.dot, exGeom],
       by norm_num [distanceToEastPlane, effectiveGeom, Cartesian3R.sub, Cartesian3R.dot, exGeom],
       by norm_num [distanceToSouthPlane, effectiveGeom, Cartesian3R.sub, Cartesian3R.dot, exGeom],
       by norm_num [distanceToNorthPlane, effectiveGeom, Cartesian3R.sub, Cartesian3R.dot, exGeom],
       by norm_num [distanceFromTop, effectiveGeom, exGeom]⟩,
    (getDistanceToTile_clamped_excesses .SCENE3D exGeom ⟨0, 0, 0⟩ ⟨0, 0, 0⟩ ⟨3, 0, 0⟩ (-1)).2
      3 (by norm_num)
      (Or.inl
        ⟨by norm_num [distanceToWestPlane, effectiveGeom, Cartesian3R.sub, Cartesian3R.dot, exGeom],
         by norm_num [distanceToEastPlane, effectiveGeom, Cartesian3R.sub, Cartesian3R.dot, exGeom],
         by norm_num [distanceToSouthPlane, effectiveGeom, Cartesian3R.sub, Cartesian3R.dot, exGeom],
         by norm_num [distanceToNorthPlane, effectiveGeom, Cartesian3R.sub, Cartesian3R.dot, exGeom],
         by norm_num [distanceFromTop, effectiveGeom, exGeom]⟩)⟩

/-- Flattened size of the render lists grows by exactly one on a push. -/
theorem pushBucket_flatten_length (buckets : List (List Nat)) (i cmd : Nat) :
    (pushBucket buckets i cmd).flatten.length = buckets.flatten.length + 1 := by
  induction buckets generalizing i with
  | nil =>
    induction i with
    | zero => simp [pushBucket]
    | succ k ihk => simp [pushBucket, ihk]
  | cons bkt rest ih =>
    cases i with
    | zero => simp [pushBucket]; omega
    | succ k => simp [pushBucket, ih]; omega

/-- Membership in the render lists after a push. -/
theorem mem_pushBucket (buckets : List (List Nat)) (i cmd x : Nat) :
    x ∈ (pushBucket buckets i cmd).flatten ↔ x ∈ buckets.flatten ∨ x = cmd := by
  induction buckets generalizing i with
  | nil =>
    induction i with
    | zero => simp [pushBucket]
    | succ k ihk => simp [pushBucket, ihk]
  | cons bkt rest ih =>
    cases i with
    | zero =>
      simp only [pushBucket, List.flatten_cons, List.mem_append, List.mem_singleton]
      tauto
    | succ k =>
      simp only [pushBucket, List.flatten_cons, List.mem_append, ih]
      tauto

/-- `claimSlot` bookkeeping: the used counter advances by one, the render
lists are untouched, the command arrays never shrink, the claimed command
lives at the old used index, entries below it are unchanged, and the counter
stays within the array when it was before. -/
theorem claimSlot_spec (p : ProviderPool) :
    ((claimSlot p).2.usedDrawCommands = p.usedDrawCommands + 1) ∧
    ((claimSlot p).2.tilesToRenderByTextureCount = p.tilesToRenderByTextureCount) ∧
    (p.drawCommands.length ≤ (claimSlot p).2.drawCommands.length) ∧
    (p.usedDrawCommands ≤ p.drawCommands.length →
      ((claimSlot p).2.usedDrawCommands ≤ (claimSlot p).2.drawCommands.length ∧
       (claimSlot p).2.drawCommands.getD p.usedDrawCommands 0 = (claimSlot p).1 ∧
       ∀ j, j < p.usedDrawCommands →
         (claimSlot p).2.drawCommands.getD j 0 = p.drawCommands.getD j 0)) := by
  by_cases hc : p.drawCommands.length ≤ p.usedDrawCommands
  · have hcs : claimSlot p = (p.nextCommandId,
        { p with drawCommands := p.drawCommands ++ [p.nextCommandId]
                 uniformMaps := p.uniformMaps ++ [p.nextCommandId]
                 usedDrawCommands := p.usedDrawCommands + 1
                 nextCommandId := p.nextCommandId + 1 }) := by
      simp [claimSlot, hc]
    rw [hcs]
    refine ⟨rfl, rfl, by simp, ?_⟩
    intro h
    have heq : p.usedDrawCommands = p.drawCommands.length := le_antisymm h hc
    refine ⟨?_, ?_, ?_⟩
    · show p.usedDrawCommands + 1 ≤ (p.drawCommands ++ [p.nextCommandId]).length
      simp
      omega
    · show (p.drawCommands ++ [p.nextCommandId]).getD p.usedDrawCommands 0 = p.nextCommandId
      rw [heq, List.getD_append_right _ _ _ _ (le_refl _)]
      simp
    · intro j hj
      show (p.drawCommands ++ [p.nextCommandId]).getD j 0 = p.drawCommands.getD j 0
      exact List.getD_append _ _ _ _ (by omega)
  · have hcs : claimSlot p = (p.drawCommands.getD p.usedDrawCommands 0,
        { p with usedDrawCommands := p.usedDrawCommands + 1 }) := by
      simp [claimSlot, hc]
    rw [hcs]
    refine ⟨rfl, rfl, le_refl _, ?_⟩
    intro h
    refine ⟨?_, rfl, fun j hj => rfl⟩
    show p.usedDrawCommands + 1 ≤ p.drawCommands.length
    omega

/-- Emptying every render list flattens to the empty list. -/
theorem flatten_map_nil (l : List (List Nat)) :
    (l.map fun _ => ([] : List Nat)).flatten = [] := by
  induction l with
  | nil => rfl
  | cons b rest ih => simp [ih]

/-- The invariant tying the render lists to the pool: the used counter is
within the pool, and every filed command was claimed this frame (it sits at
an index below the used counter). -/
def PoolInv (p : ProviderPool) : Prop :=
  p.usedDrawCommands ≤ p.drawCommands.length ∧
  ∀ cmd ∈ p.tilesToRenderByTextureCount.flatten,
    ∃ j, j < p.usedDrawCommands ∧ p.drawCommands.getD j 0 = cmd

/-- `beginFrame` establishes the invariant: the render lists are emptied and
the used counter resets. -/
theorem poolInv_beginFrame (p : ProviderPool) : PoolInv (beginFrame p) := by
  refine ⟨by simp [beginFrame], ?_⟩
  intro cmd hcmd
  simp only [beginFrame] at hcmd
  rw [flatten_map_nil] at hcmd
  simp at hcmd

/-- One `renderTileLoop` iteration body preserves the invariant. -/
theorem poolInv_poolFile (p : ProviderPool) (n : Nat) (h : PoolInv p) :
    PoolInv (poolFile p n) := by
  rw [poolFile]
  obtain ⟨hused, hbuckets, hgrow, hrest⟩ := claimSlot_spec p
  obtain ⟨hle, hat, hbelow⟩ := hrest h.1
  constructor
  · show (claimSlot p).2.usedDrawCommands ≤ (claimSlot p).2.drawCommands.length
    exact hle
  · intro cmd hcmd
    show ∃ j, j < (claimSlot p).2.usedDrawCommands ∧
      (claimSlot p).2.drawCommands.getD j 0 = cmd
    have hcmd' : cmd ∈
        (pushBucket (claimSlot p).2.tilesToRenderByTextureCount n (claimSlot p).1).flatten :=
      hcmd
    rw [mem_pushBucket] at hcmd'
    rcases hcmd' with hcmd' | hcmd'
    · rw [hbuckets] at hcmd'
      obtain ⟨j, hj, hjd⟩ := h.2 cmd hcmd'
      refine ⟨j, ?_, ?_⟩
      · rw [hused]; omega
      · rw [hbelow j hj]; exact hjd
    · exact ⟨p.usedDrawCommands, by rw [hused]; omega, by rw [hat, hcmd']⟩

/-- `renderTileLoop` preserves the invariant. -/
theorem poolInv_renderTileLoop (maxT : Nat) (fuel : Nat) :
    ∀ (imagery : List RenderTileImagery) (p : ProviderPool),
      PoolInv p → PoolInv (renderTileLoop maxT fuel imagery p) := by
  induction fuel with
  | zero => intro imagery p h; exact h
  | succ n ih =>
    intro imagery p h
    rw [renderTileLoop]
    rcases hg : gatherTextures maxT 0 imagery with ⟨cnt, rest⟩
    simp only [hg]
    have hstep := poolInv_poolFile p cnt h
    cases rest with
    | nil => exact hstep
    | cons ti rest' => exact ih _ _ hstep

/-- `renderTile` preserves the invariant. -/
theorem poolInv_renderTile (maxT : Nat) (imagery : List RenderTileImagery)
    (p : ProviderPool) (h : PoolInv p) : PoolInv (renderTile maxT imagery p) :=
  poolInv_renderTileLoop maxT (imagery.length + 1) imagery p h

/-- A frame's worth of `renderTile` calls preserves the invariant. -/
theorem poolInv_runRenderCalls (calls : List (Nat × List RenderTileImagery)) :
    ∀ p : ProviderPool, PoolInv p → PoolInv (runRenderCalls p calls) := by
  induction calls with
  | nil => intro p h; exact h
  | cons c rest ih =>
    intro p h
    exact ih _ (poolInv_renderTile c.1 c.2 p h)

/-- The pool effect of one iteration: used counter and render-list volume
each grow by exactly one. -/
theorem poolFile_counts (p : ProviderPool) (n : Nat) :
    (poolFile p n).usedDrawCommands = p.usedDrawCommands + 1 ∧
    (poolFile p n).tilesToRenderByTextureCount.flatten.length =
      p.tilesToRenderByTextureCount.flatten.length + 1 := by
  obtain ⟨hused, hbuckets, -, -⟩ := claimSlot_spec p
  constructor
  · rw [poolFile] at *
    exact hused
  · show (pushBucket (claimSlot p).2.tilesToRenderByTextureCount n (claimSlot p).1).flatten.length =
      p.tilesToRenderByTextureCount.flatten.length + 1
    rw [pushBucket_flatten_length, hbuckets]

/-- The loop never decreases the used counter or the render-list volume. -/
theorem renderTileLoop_mono (maxT : Nat) (fuel : Nat) :
    ∀ (imagery : List RenderTileImagery) (p : ProviderPool),
      p.usedDrawCommands ≤ (renderTileLoop maxT fuel imagery p).usedDrawCommands ∧
      p.tilesToRenderByTextureCount.flatten.length ≤
        (renderTileLoop maxT fuel imagery p).tilesToRenderByTextureCount.flatten.length := by
  induction fuel with
  | zero => intro imagery p; exact ⟨le_refl _, le_refl _⟩
  | succ n ih =>
    intro imagery p
    rw [renderTileLoop]
    rcases hg : gatherTextures maxT 0 imagery with ⟨cnt, rest⟩
    simp only [hg]
    obtain ⟨hc1, hc2⟩ := poolFile_counts p cnt
    cases rest with
    | nil =>
      refine ⟨?_, ?_⟩
      · show p.usedDrawCommands ≤ (poolFile p cnt).usedDrawCommands
        omega
      · show p.tilesToRenderByTextureCount.flatten.length ≤
          (poolFile p cnt).tilesToRenderByTextureCount.flatten.length
        omega
    | cons ti rest' =>
      obtain ⟨h1, h2⟩ := ih (ti :: rest') (poolFile p cnt)
      refine ⟨?_, ?_⟩
      · show p.usedDrawCommands ≤
          (renderTileLoop maxT n (ti :: rest') (poolFile p cnt)).usedDrawCommands
        omega
      · show p.tilesToRenderByTextureCount.flatten.length ≤
          (renderTileLoop maxT n (ti :: rest')
            (poolFile p cnt)).tilesToRenderByTextureCount.flatten.length
        omega

/-- When no imagery entry passes the texture filter and at least one texture
unit exists, the gathering loop consumes everything and counts nothing. -/
theorem gatherTextures_none_pass (maxT : Nat) (hmaxT : 0 < maxT)
    (l : List RenderTileImagery)
    (h : ∀ ti ∈ l, passesTextureFilter ti = false) :
    gatherTextures maxT 0 l = (0, []) := by
  induction l with
  | nil => rfl
  | cons ti rest ih =>
    rw [gatherTextures, if_pos hmaxT, h ti (by simp)]
    simp only [Bool.false_eq_true, if_false]
    exact ih fun t ht => h t (by simp [ht])

/-- C5: the draw-command pool never shrinks and grows only to the high-water
mark — across frames of 2, 5 and 1 requests the pool reaches length 5 and no
command is allocated on the shrinking third frame; `beginFrame` resets only
the used counter; and everything `endFrame` emits was claimed this frame, so
commands at indexes at or above the used counter are never emitted. -/
theorem drawCommandPool_high_water_mark :
    (poolAfter1.drawCommands.length = 2 ∧ poolAfter1.nextCommandId = 2 ∧
     poolAfter2.drawCommands.length = 5 ∧ poolAfter2.nextCommandId = 5 ∧
     poolAfter3.drawCommands.length = 5 ∧ poolAfter3.nextCommandId = 5) ∧
    (∀ p : ProviderPool,
      (beginFrame p).drawCommands = p.drawCommands ∧
      (beginFrame p).uniformMaps = p.uniformMaps ∧
      (beginFrame p).nextCommandId = p.nextCommandId ∧
      (beginFrame p).usedDrawCommands = 0) ∧
    (∀ (p : ProviderPool) (calls : List (Nat × List RenderTileImagery)) (cmd : Nat),
      cmd ∈ endFrame (runRenderCalls (beginFrame p) calls) [] →
      ∃ j, j < (runRenderCalls (beginFrame p) calls).usedDrawCommands ∧
        (runRenderCalls (beginFrame p) calls).drawCommands.getD j 0 = cmd) := by
  refine ⟨by decide, fun p => ⟨rfl, rfl, rfl, rfl⟩, ?_⟩
  intro p calls cmd hcmd
  have hinv : PoolInv (runRenderCalls (beginFrame p) calls) :=
    poolInv_runRenderCalls calls (beginFrame p) (poolInv_beginFrame p)
  apply hinv.2
  simpa [endFrame] using hcmd

/-- C5 witness: the staleness conjunct at a concrete frame — the only emitted
command of a one-call frame on the fresh pool is the claimed slot 0. -/
theorem drawCommandPool_witness :
    ∃ j, j < (runRenderCalls (beginFrame initialPool) [(8, [])]).usedDrawCommands ∧
      (runRenderCalls (beginFrame initialPool) [(8, [])]).drawCommands.getD j 0 = 0 :=
  drawCommandPool_high_water_mark.2.2 initialPool [(8, [])] 0 (by decide)

/-- C10: every `renderTile` call emits at least one draw command — the
do-while body always runs once, so the used counter and the render-list
volume grow by at least one — and on a tile whose imagery list contains no
ready entry (in particular an empty list) exactly one command is claimed and
filed under texture count 0. -/
theorem renderTile_emits_at_least_one_command
    (maxT : Nat) (imagery : List RenderTileImagery) (p : ProviderPool) :
    (p.usedDrawCommands + 1 ≤ (renderTile maxT imagery p).usedDrawCommands ∧
     p.tilesToRenderByTextureCount.flatten.length + 1 ≤
       (renderTile maxT imagery p).tilesToRenderByTextureCount.flatten.length) ∧
    (0 < maxT → (∀ ti ∈ imagery, passesTextureFilter ti = false) →
      renderTile maxT imagery p = poolFile p 0) := by
  constructor
  · rw [renderTile, renderTileLoop]
    rcases hg : gatherTextures maxT 0 imagery with ⟨cnt, rest⟩
    simp only [hg]
    obtain ⟨hc1, hc2⟩ := poolFile_counts p cnt
    cases rest with
    | nil =>
      refine ⟨?_, ?_⟩
      · show p.usedDrawCommands + 1 ≤ (poolFile p cnt).usedDrawCommands
        omega
      · show p.tilesToRenderByTextureCount.flatten.length + 1 ≤
          (poolFile p cnt).tilesToRenderByTextureCount.flatten.length
        omega
    | cons ti rest' =>
      obtain ⟨h1, h2⟩ := renderTileLoop_mono maxT imagery.length (ti :: rest') (poolFile p cnt)
      refine ⟨?_, ?_⟩
      · show p.usedDrawCommands + 1 ≤
          (renderTileLoop maxT imagery.length (ti :: rest') (poolFile p cnt)).usedDrawCommands
        omega
      · show p.tilesToRenderByTextureCount.flatten.length + 1 ≤
          (renderTileLoop maxT imagery.length (ti :: rest')
            (poolFile p cnt)).tilesToRenderByTextureCount.flatten.length
        omega
  · intro hmaxT hpass
    rw [renderTile, renderTileLoop, gatherTextures_none_pass maxT hmaxT imagery hpass]

/-- C10 witness: on a tile with a single not-yet-ready imagery entry, the call
claims exactly one slot and files one command under texture count 0; the
general lower bound holds there too. -/
theorem renderTile_emits_witness :
    (initialPool.usedDrawCommands + 1 ≤
        (renderTile 8 [tiBad] initialPool).usedDrawCommands ∧
      initialPool.tilesToRenderByTextureCount.flatten.length + 1 ≤
        (renderTile 8 [tiBad] initialPool).tilesToRenderByTextureCount.flatten.length) ∧
    renderTile 8 [tiBad] initialPool = poolFile initialPool 0 :=
  ⟨(renderTile_emits_at_least_one_command 8 [tiBad] initialPool).1,
   (renderTile_emits_at_least_one_command 8 [tiBad] initialPool).2 (by decide) (by decide)⟩

/-- Once the run start is recorded, the scan consumes exactly the remaining
prefix of matching entries (freeing them), keeps the recorded start, and
breaks at the first non-matching entry. -/
theorem scanRun_some (L : Nat) (l : List TileImageryRef) :
    ∀ (s i nd : Nat) (freed : List TileImageryRef),
      scanRun L l (some s) i nd freed =
        (some s,
         nd + (l.takeWhile fun ti => decide (ti.effectiveLayer = some L)).length,
         freed ++ l.takeWhile fun ti => decide (ti.effectiveLayer = some L)) := by
  induction l with
  | nil => intro s i nd freed; simp [scanRun]
  | cons ti rest ih =>
    intro s i nd freed
    by_cases hti : ti.effectiveLayer = some L
    · rw [scanRun, if_pos hti]
      have hgd : (some s).getD i = s := rfl
      rw [hgd, ih]
      simp only [List.takeWhile_cons, hti, decide_eq_true_eq, if_pos, Prod.mk.injEq,
        List.length_cons]
      refine ⟨by trivial, by omega, by simp⟩
    · rw [scanRun, if_neg hti]
      simp [List.takeWhile_cons, hti]

/-- The scan before any match: it skips the non-matching prefix, then — if a
matching entry exists — records its index as the run start and consumes the
matching run after it. -/
theorem scanRun_none (L : Nat) (l : List TileImageryRef) :
    ∀ (i nd : Nat) (freed : List TileImageryRef),
      scanRun L l none i nd freed =
        match l.dropWhile (fun ti => !decide (ti.effectiveLayer = some L)) with
        | [] => (none, nd, freed)
        | m :: v =>
          (some (i + (l.takeWhile fun ti => !decide (ti.effectiveLayer = some L)).length),
           nd + 1 + (v.takeWhile fun ti => decide (ti.effectiveLayer = some L)).length,
           freed ++ m :: v.takeWhile fun ti => decide (ti.effectiveLayer = some L)) := by
  induction l with
  | nil => intro i nd freed; simp [scanRun]
  | cons ti rest ih =>
    intro i nd freed
    by_cases hti : ti.effectiveLayer = some L
    · rw [scanRun, if_pos hti]
      have hgd : (Option.getD none i) = i := rfl
      rw [hgd, scanRun_some]
      simp [List.dropWhile_cons, List.takeWhile_cons, hti]
    · rw [scanRun, if_neg hti]
      simp only [Option.isSome_none, Bool.false_eq_true, if_false]
      rw [ih (i + 1)]
      have hdc : (ti :: rest).dropWhile (fun t => !decide (t.effectiveLayer = some L)) =
          rest.dropWhile (fun t => !decide (t.effectiveLayer = some L)) := by
        simp [List.dropWhile_cons, hti]
      have htc : (ti :: rest).takeWhile (fun t => !decide (t.effectiveLayer = some L)) =
          ti :: rest.takeWhile (fun t => !decide (t.effectiveLayer = some L)) := by
        simp [List.takeWhile_cons, hti]
      rw [hdc, htc]
      cases hdw : rest.dropWhile (fun t => !decide (t.effectiveLayer = some L)) with
      | nil => rfl
      | cons m v =>
        simp only [Prod.mk.injEq, Option.some.injEq, List.length_cons]
        refine ⟨by omega, by trivial⟩

/-- The head of a non-empty `dropWhile` result fails the predicate. -/
theorem dropWhile_head_not {α : Type} (q : α → Bool) :
    ∀ (l : List α) (m : α) (v : List α), l.dropWhile q = m :: v → q m = false := by
  intro l
  induction l with
  | nil => intro m v h; simp [List.dropWhile] at h
  | cons a rest ih =>
    intro m v h
    rw [List.dropWhile_cons] at h
    by_cases hq : q a = true
    · rw [if_pos hq] at h
      exact ih m v h
    · rw [if_neg hq] at h
      injection h with h1 h2
      subst h1
      simpa using hq

/-- Taking exactly the length of a prefix returns the prefix. -/
theorem take_append_len {α : Type} (u X : List α) : (u ++ X).take u.length = u := by
  induction u with
  | nil => simp
  | cons a u ih => simpa using ih

/-- Dropping the prefix length plus `k` drops `k` into the suffix. -/
theorem drop_append_len {α : Type} (u : List α) :
    ∀ (X : List α) (k : Nat), (u ++ X).drop (u.length + k) = X.drop k := by
  induction u with
  | nil => intro X k; simp
  | cons a u ih => intro X k; simpa [Nat.succ_add] using ih X k

/-- A filter that accepts every element is the identity. -/
theorem filter_eq_self_of {α : Type} (q : α → Bool) :
    ∀ (l : List α), (∀ x ∈ l, q x = true) → l.filter q = l := by
  intro l
  induction l with
  | nil => intro _; rfl
  | cons a rest ih =>
    intro h
    rw [List.filter_cons_of_pos (h a (by simp))]
    rw [ih fun x hx => h x (by simp [hx])]

/-- A filter that rejects every element is empty. -/
theorem filter_eq_nil_of {α : Type} (q : α → Bool) :
    ∀ (l : List α), (∀ x ∈ l, q x = false) → l.filter q = [] := by
  intro l
  induction l with
  | nil => intro _; rfl
  | cons a rest ih =>
    intro h
    rw [List.filter_cons_of_neg (by simp [h a (by simp)])]
    exact ih fun x hx => h x (by simp [hx])

/-- In a layer-sorted, fully defined list, once the run of entries of layer
`L` that starts at `m` has been consumed, no later entry belongs to `L`: the
suffix after the consumed run contains no further match. -/
theorem run_ends (L : Nat) (l : List TileImageryRef)
    (hdef : ∀ ti ∈ l, ti.effectiveLayer.isSome = true)
    (hsorted : l.Pairwise
      (fun a b => a.effectiveLayer.getD 0 ≤ b.effectiveLayer.getD 0))
    (u : List TileImageryRef) (m : TileImageryRef) (v : List TileImageryRef)
    (hdecomp : l = u ++ m :: v)
    (hm : m.effectiveLayer = some L) :
    ∀ x ∈ v.dropWhile (fun t => decide (t.effectiveLayer = some L)),
      decide (x.effectiveLayer = some L) = false := by
  have hmv : (m :: v).Pairwise
      (fun a b => a.effectiveLayer.getD 0 ≤ b.effectiveLayer.getD 0) :=
    hsorted.sublist (by rw [hdecomp]; exact List.sublist_append_right u (m :: v))
  rw [List.pairwise_cons] at hmv
  obtain ⟨hmles, hvpair⟩ := hmv
  intro x hx
  cases hd : v.dropWhile (fun t => decide (t.effectiveLayer = some L)) with
  | nil => rw [hd] at hx; simp at hx
  | cons w d' =>
    rw [hd] at hx
    have hsubv : (w :: d').Sublist v := by
      rw [← hd]; exact List.dropWhile_sublist _
    have hw : (fun t : TileImageryRef => decide (t.effectiveLayer = some L)) w = false :=
      dropWhile_head_not _ v w d' hd
    have hwv : w ∈ v := hsubv.subset (by simp)
    have hwl : w ∈ l := by rw [hdecomp]; simp [hwv]
    obtain ⟨kw, hkw⟩ := Option.isSome_iff_exists.mp (hdef w hwl)
    have hkwne : kw ≠ L := by
      intro hcontra
      rw [hcontra] at hkw
      simp [hkw] at hw
    have hLkw : L < kw := by
      have := hmles w hwv
      rw [hm, hkw] at this
      simp at this
      omega
    have hwd : (w :: d').Pairwise
        (fun a b => a.effectiveLayer.getD 0 ≤ b.effectiveLayer.getD 0) :=
      hvpair.sublist hsubv
    rw [List.pairwise_cons] at hwd
    obtain ⟨hwles, -⟩ := hwd
    rcases (by simpa using hx : x = w ∨ x ∈ d') with hxw | hxd
    · subst hxw
      exact hw
    · have hxv : x ∈ v := hsubv.subset (by simp [hxd])
      have hxl : x ∈ l := by rw [hdecomp]; simp [hxv]
      obtain ⟨kx, hkx⟩ := Option.isSome_iff_exists.mp (hdef x hxl)
      have hkwkx : kw ≤ kx := by
        have := hwles x hxd
        rw [hkw, hkx] at this
        simpa using this
      have : x.effectiveLayer ≠ some L := by
        rw [hkx]
        intro hcontra
        injection hcontra with hk
        omega
      simp [this]

/-- The scan plus splice of `_onLayerRemoved` computes the two filters on a
layer-sorted, fully defined imagery list: what survives is every entry of the
other layers, and what was freed is every entry of the removed layer. -/
theorem scan_splice_filter (L : Nat) (l : List TileImageryRef)
    (hdef : ∀ ti ∈ l, ti.effectiveLayer.isSome = true)
    (hsorted : l.Pairwise
      (fun a b => a.effectiveLayer.getD 0 ≤ b.effectiveLayer.getD 0)) :
    (match (scanRun L l none 0 0 []).1 with
      | some s => spliceOut l s (scanRun L l none 0 0 []).2.1
      | none => l) =
        l.filter (fun ti => !decide (ti.effectiveLayer = some L)) ∧
    (scanRun L l none 0 0 []).2.2 =
        l.filter (fun ti => decide (ti.effectiveLayer = some L)) := by
  cases hdw : l.dropWhile (fun t => !decide (t.effectiveLayer = some L)) with
  | nil =>
    have hscan : scanRun L l none 0 0 [] = (none, 0, []) := by
      rw [scanRun_none, hdw]
    have hall : ∀ x ∈ l, (!decide (x.effectiveLayer = some L)) = true := by
      intro x hx
      simpa using List.dropWhile_eq_nil_iff.mp hdw x hx
    have hnone : ∀ x ∈ l, decide (x.effectiveLayer = some L) = false := by
      intro x hx
      simpa using hall x hx
    rw [hscan]
    exact ⟨(filter_eq_self_of _ l hall).symm, (filter_eq_nil_of _ l hnone).symm⟩
  | cons m v =>
    set u := l.takeWhile (fun t => !decide (t.effectiveLayer = some L)) with hudef
    set t0 := v.takeWhile (fun t => decide (t.effectiveLayer = some L)) with htdef
    set d0 := v.dropWhile (fun t => decide (t.effectiveLayer = some L)) with hddef
    have hscan : scanRun L l none 0 0 [] =
        (some (0 + u.length), 0 + 1 + t0.length, [] ++ m :: t0) := by
      rw [scanRun_none, hdw, hudef, htdef]
    have hu : u ++ m :: v = l := by
      rw [hudef, ← hdw]
      exact List.takeWhile_append_dropWhile _ _
    have hpm : (fun t : TileImageryRef => !decide (t.effectiveLayer = some L)) m = false :=
      dropWhile_head_not _ l m v hdw
    have hpm' : m.effectiveLayer = some L := by simpa using hpm
    have hv : t0 ++ d0 = v := by
      rw [htdef, hddef]
      exact List.takeWhile_append_dropWhile _ _
    have humem : ∀ x ∈ u, decide (x.effectiveLayer = some L) = false := by
      intro x hx
      rw [hudef] at hx
      simpa using List.mem_takeWhile_imp hx
    have htmem : ∀ x ∈ t0, decide (x.effectiveLayer = some L) = true := by
      intro x hx
      rw [htdef] at hx
      simpa using List.mem_takeWhile_imp hx
    have hdmem : ∀ x ∈ d0, decide (x.effectiveLayer = some L) = false := by
      rw [hddef]
      exact run_ends L l hdef hsorted u m v hu.symm hpm'
    rw [hscan]
    constructor
    · show spliceOut l (0 + u.length) (0 + 1 + t0.length) =
        l.filter fun ti => !decide (ti.effectiveLayer = some L)
      simp only [Nat.zero_add]
      rw [spliceOut, ← hu]
      rw [take_append_len]
      have harith : u.length + (1 + t0.length) = u.length + (1 + t0.length) := rfl
      rw [drop_append_len]
      have hdrop : (m :: v).drop (1 + t0.length) = d0 := by
        rw [Nat.add_comm, List.drop_succ_cons]
        calc v.drop t0.length
            = (t0 ++ d0).drop t0.length := by rw [hv]
          _ = d0 := by simpa using drop_append_len t0 d0 0
      rw [hdrop]
      rw [List.filter_append]
      rw [filter_eq_self_of _ u (fun x hx => by simp [humem x hx])]
      rw [List.filter_cons_of_neg (by simp [hpm'])]
      rw [← hv, List.filter_append]
      rw [filter_eq_nil_of _ t0 (fun x hx => by simp [htmem x hx])]
      rw [filter_eq_self_of _ d0 (fun x hx => by simp [hdmem x hx])]
      simp
    · show [] ++ m :: t0 = l.filter fun ti => decide (ti.effectiveLayer = some L)
      rw [← hu, List.filter_append]
      rw [filter_eq_nil_of _ u humem]
      rw [List.filter_cons_of_pos (by simp [hpm'])]
      rw [← hv, List.filter_append]
      rw [filter_eq_self_of _ t0 htmem]
      rw [filter_eq_nil_of _ d0 hdmem]
      simp

/-- C8: on a loaded tile whose TileImagery list is sorted by ascending layer
index (every entry carrying a defined imagery), removing a layer deletes
exactly the contiguous run of entries of that layer (the surviving list is
the original filtered to the other layers), frees exactly those entries, and
marks the tile non-renderable exactly when the removed layer is the base
layer. -/
theorem onLayerRemoved_removes_contiguous_run
    (layer : ImageryLayerRef) (tile : SurfaceTileImageryState)
    (hdef : ∀ ti ∈ tile.imagery, ti.effectiveLayer.isSome = true)
    (hsorted : tile.imagery.Pairwise
      (fun a b => a.effectiveLayer.getD 0 ≤ b.effectiveLayer.getD 0)) :
    (onLayerRemovedTile layer tile).1.imagery =
        tile.imagery.filter (fun ti => !decide (ti.effectiveLayer = some layer.id)) ∧
    (onLayerRemovedTile layer tile).2 =
        tile.imagery.filter (fun ti => decide (ti.effectiveLayer = some layer.id)) ∧
    (onLayerRemovedTile layer tile).1.isRenderable =
        (if layer.isBase then false else tile.isRenderable) := by
  obtain ⟨h1, h2⟩ := scan_splice_filter layer.id tile.imagery hdef hsorted
  exact ⟨h1, h2, rfl⟩

/-- C8 witness: removing layer 1 from a tile with sorted entries of layers
0, 1, 1, 2 keeps exactly the layer-0 and layer-2 entries, frees exactly the
two layer-1 entries, and leaves the tile renderable since layer 1 is not the
base layer. -/
theorem onLayerRemoved_witness :
    (onLayerRemovedTile { id := 1, isBase := false } exTile).1.imagery =
        exTile.imagery.filter (fun ti => !decide (ti.effectiveLayer = some 1)) ∧
    (onLayerRemovedTile { id := 1, isBase := false } exTile).2 =
        exTile.imagery.filter (fun ti => decide (ti.effectiveLayer = some 1)) ∧
    (onLayerRemovedTile { id := 1, isBase := false } exTile).1.isRenderable =
        (if ({ id := 1, isBase := false } : ImageryLayerRef).isBase then false
         else exTile.isRenderable) :=
  onLayerRemoved_removes_contiguous_run { id := 1, isBase := false } exTile
    (by decide) (by decide)

end UAVCesium
